import Mathlib

/-!
Verification development for the token-analyzer repository: a shallow
embedding, in Lean 4, of the aggregation and clarity-heuristic core
(aggregate loop, pricing resolver, daily-slice builder, clarity signal
detector, session clarity accumulator, coaching-tip selector, insight
generator), together with theorems settling the frozen specification claims.

Modelling conventions, used throughout:
- Go machine integers (int, int64) are modelled as unbounded `Int`; the
  token-count invariants under study do not depend on wraparound.
- Go float64 values (costs, rates, scores) are modelled as exact rationals.
- Go `time.Time` is modelled as an integer timeline in seconds, with the
  value 0 standing for Go's zero time (`IsZero`), and the UTC calendar day
  of an instant modelled as floor division by 86400.
- Go maps are modelled as insertion-ordered association lists; iteration
  order of a Go map is unspecified, and the list order is one valid
  resolution of that nondeterminism.
- Strings: the repository's phrase tables and model ids are ASCII, so Go's
  byte-level operations (strings.Contains, strings.HasPrefix, len) coincide
  with character-level operations used here; Go strings.ToLower is modelled
  on the ASCII range.
- parse.go is not among the provided sources. Modelled from the spec:
  section 6 describes the decode step as yielding, per discovered file, an
  ordered record list plus a count of lines that failed to decode; we attach
  that decoded list and the failed-line count directly to each `FileInfo`.
-/

/-- Look up a key in an association list, returning a default when the key is
absent. Models reading from a Go map, where a missing key yields the zero
value. -/
def lookupD [DecidableEq α] (m : List (α × β)) (k : α) (d : β) : β :=
  match m with
  | [] => d
  | (k', v) :: rest => if k' = k then v else lookupD rest k d

/-- Insert-or-update a key in an association list, preserving first-insertion
order: the first matching entry is rewritten with `f`, and a missing key is
appended as `f d`. Models the Go map getOrCreate-then-mutate pattern. -/
def upsert [DecidableEq α] (k : α) (f : β → β) (d : β) : List (α × β) → List (α × β)
  | [] => [(k, f d)]
  | (k', v) :: rest => if k' = k then (k', f v) :: rest else (k', v) :: upsert k f d rest

/-- Character-level prefix test; models Go strings.HasPrefix (byte-level, which
coincides with character level for the ASCII strings involved). -/
def isPrefixChars : List Char → List Char → Bool
  | [], _ => true
  | _ :: _, [] => false
  | a :: as, b :: bs => a == b && isPrefixChars as bs

/-- Substring occurrence test, scanning every suffix; models the byte-window
scan of Go strings.Contains and of containsCI's inner loop. -/
def containsChars (sub : List Char) : List Char → Bool
  | [] => isPrefixChars sub []
  | c :: rest => isPrefixChars sub (c :: rest) || containsChars sub rest

/-- ASCII lower-casing of one character, as in the aggregate file's toLower
(bytes in 'A'..'Z' get 32 added). -/
def asciiLower (c : Char) : Char :=
  if 'A' ≤ c ∧ c ≤ 'Z' then Char.ofNat (c.toNat + 32) else c

/-- ASCII lower-casing of a whole string (toLower in the aggregate file; also
models Go strings.ToLower on the ASCII range used by the phrase tables). -/
def goToLower (s : String) : String := String.mk (s.data.map asciiLower)

/-- Raw token counts from a single assistant message (models.go TokenUsage). -/
structure TokenUsage where
  InputTokens : Int := 0
  OutputTokens : Int := 0
  CacheCreationInputTokens : Int := 0
  CacheReadInputTokens : Int := 0
deriving DecidableEq, Repr

/-- IsZero reports that no tokens were used (models.go TokenUsage.IsZero). -/
def TokenUsage.IsZero (u : TokenUsage) : Bool :=
  u.InputTokens == 0 && u.OutputTokens == 0 &&
    u.CacheCreationInputTokens == 0 && u.CacheReadInputTokens == 0

/-- Sum of the four token kinds of one usage record; proof-side abbreviation
for the amount a record contributes to any TotalTokens figure. -/
def TokenUsage.sumTokens (u : TokenUsage) : Int :=
  u.InputTokens + u.OutputTokens + u.CacheCreationInputTokens + u.CacheReadInputTokens

/-- Canonical accumulator for any aggregation axis (models.go UsageTotals). -/
structure UsageTotals where
  InputTokens : Int := 0
  OutputTokens : Int := 0
  CacheCreationInputTokens : Int := 0
  CacheReadInputTokens : Int := 0
  MessageCount : Int := 0
  CostUSD : ℚ := 0
deriving DecidableEq, Repr

/-- Add merges a TokenUsage into this accumulator (models.go UsageTotals.Add). -/
def UsageTotals.Add (t : UsageTotals) (u : TokenUsage) (cost : ℚ) : UsageTotals :=
  { t with
    InputTokens := t.InputTokens + u.InputTokens
    OutputTokens := t.OutputTokens + u.OutputTokens
    CacheCreationInputTokens := t.CacheCreationInputTokens + u.CacheCreationInputTokens
    CacheReadInputTokens := t.CacheReadInputTokens + u.CacheReadInputTokens
    MessageCount := t.MessageCount + 1
    CostUSD := t.CostUSD + cost }

/-- TotalTokens returns the sum of all token types (models.go). -/
def UsageTotals.TotalTokens (t : UsageTotals) : Int :=
  t.InputTokens + t.OutputTokens + t.CacheCreationInputTokens + t.CacheReadInputTokens

/-- CacheEfficiency returns cacheRead / (input + cacheWrite + cacheRead), and 0
when the denominator is 0 (models.go). -/
def UsageTotals.CacheEfficiency (t : UsageTotals) : ℚ :=
  let denom := t.InputTokens + t.CacheCreationInputTokens + t.CacheReadInputTokens
  if denom = 0 then 0 else (t.CacheReadInputTokens : ℚ) / (denom : ℚ)

/-- Per-million-token rates for one model family (pricing.go ModelPricing). -/
structure ModelPricing where
  Family : String := ""
  InputPerMTok : ℚ := 0
  OutputPerMTok : ℚ := 0
  CacheWritePerMTok : ℚ := 0
  CacheReadPerMTok : ℚ := 0
deriving DecidableEq, Repr

/-- Static model-family pricing table (pricing.go pricingTable). -/
def pricingTable : List ModelPricing :=
  [ { Family := "claude-opus-4", InputPerMTok := 15.00, OutputPerMTok := 75.00,
      CacheWritePerMTok := 18.75, CacheReadPerMTok := 1.50 },
    { Family := "claude-sonnet-4", InputPerMTok := 3.00, OutputPerMTok := 15.00,
      CacheWritePerMTok := 3.75, CacheReadPerMTok := 0.30 },
    { Family := "claude-haiku-4", InputPerMTok := 0.80, OutputPerMTok := 4.00,
      CacheWritePerMTok := 1.00, CacheReadPerMTok := 0.08 },
    { Family := "claude-3-opus", InputPerMTok := 15.00, OutputPerMTok := 75.00,
      CacheWritePerMTok := 18.75, CacheReadPerMTok := 1.50 },
    { Family := "claude-3-5-sonnet", InputPerMTok := 3.00, OutputPerMTok := 15.00,
      CacheWritePerMTok := 3.75, CacheReadPerMTok := 0.30 },
    { Family := "claude-3-sonnet", InputPerMTok := 3.00, OutputPerMTok := 15.00,
      CacheWritePerMTok := 3.75, CacheReadPerMTok := 0.30 },
    { Family := "claude-3-5-haiku", InputPerMTok := 0.80, OutputPerMTok := 4.00,
      CacheWritePerMTok := 1.00, CacheReadPerMTok := 0.08 },
    { Family := "claude-3-haiku", InputPerMTok := 0.80, OutputPerMTok := 4.00,
      CacheWritePerMTok := 1.00, CacheReadPerMTok := 0.08 } ]

/-- LookupPricing returns the best-matching pricing for a model id using
longest-prefix matching, plus a found flag (pricing.go LookupPricing: the Go
loop keeps `best` and `bestLen`, initialised to the zero pricing and -1, and
reports found as bestLen >= 0). -/
def LookupPricing (modelID : String) : ModelPricing × Bool :=
  let r := pricingTable.foldl
    (fun (acc : ModelPricing × Int) p =>
      if isPrefixChars p.Family.data modelID.data ∧ (p.Family.length : Int) > acc.2 then
        (p, (p.Family.length : Int))
      else acc)
    (({} : ModelPricing), -1)
  (r.1, decide (0 ≤ r.2))

/-- ComputeCost returns the USD cost for the given token usage and model id,
and 0 for unrecognized model ids (pricing.go ComputeCost). -/
def ComputeCost (modelID : String) (u : TokenUsage) : ℚ :=
  let pr := LookupPricing modelID
  if pr.2 = false then 0
  else
    (u.InputTokens : ℚ) / 1000000 * pr.1.InputPerMTok +
    (u.OutputTokens : ℚ) / 1000000 * pr.1.OutputPerMTok +
    (u.CacheCreationInputTokens : ℚ) / 1000000 * pr.1.CacheWritePerMTok +
    (u.CacheReadInputTokens : ℚ) / 1000000 * pr.1.CacheReadPerMTok

/-- One typed block inside an array-valued message content (clarity.go decodes
blocks to their type tag and text). -/
structure ContentBlock where
  type : String := ""
  text : String := ""
deriving DecidableEq, Repr

/-- Content payload of a record: Go json.RawMessage decoded per clarity.go
extractText, which distinguishes a plain string, an array of typed blocks, and
anything else (including undecodable bytes), here collapsed to `other`. -/
inductive MsgContent
  | other
  | str (s : String)
  | blocks (bs : List ContentBlock)
deriving DecidableEq, Repr

/-- Nested message object inside a JSONL record (models.go MessageBody). -/
structure MessageBody where
  Model : String := ""
  Usage : TokenUsage := {}
  Role : String := ""
  Content : MsgContent := .other
deriving DecidableEq, Repr

/-- One decoded JSONL record, restricted to the fields the embedded core
reads (models.go MessageRecord). `Type'` stands for the Go field `Type`
(`Type` is a Lean keyword); `Timestamp` 0 stands for Go's zero time. -/
structure MessageRecord where
  Type' : String := ""
  SessionID : String := ""
  Timestamp : Int := 0
  CWD : String := ""
  Message : MessageBody := {}
deriving DecidableEq, Repr

/-- FileKind distinguishes session-level from subagent JSONL files
(models.go). -/
inductive FileKind
  | KindSession
  | KindSubagent
deriving DecidableEq, Repr

/-- A discovered JSONL file together with its decoded content (models.go
FileInfo). Modelled from the spec: parse.go is missing from the sources, so
per section 6 the decode step's outputs — the ordered record list and the
count of lines that failed to decode — are attached here in place of the Go
`Path` field; for the usage pipeline `records` stands for ParseFile's output
and for the clarity pipeline for ParseFileAllRecords' output. -/
structure FileInfo where
  Kind : FileKind := .KindSession
  ProjectSlug : String := ""
  SessionID : String := ""
  AgentID : String := ""
  records : List MessageRecord := []
  parseErrors : Nat := 0
deriving DecidableEq, Repr

/-- Walk-back phrase table (clarity.go walkbackSignals). -/
def walkbackSignals : List String :=
  [ "no,", "no.", "no!", "no no",
    "actually", "actually,",
    "wait,", "wait.", "wait wait",
    "wrong,", "wrong.", "that\x27s wrong", "thats wrong", "that was wrong",
    "scratch that", "ignore that", "disregard that",
    "nevermind", "never mind", "forget that", "forget it",
    "instead,", "instead.",
    "hold on", "hold on,",
    "try again", "undo that", "go back", "start over",
    "that\x27s not right", "thats not right",
    "revert", "revert that" ]

/-- Scope-restriction phrase table (clarity.go scopePhrases). -/
def scopePhrases : List String :=
  [ "don\x27t change", "dont change",
    "don\x27t touch", "dont touch",
    "don\x27t modify", "dont modify",
    "don\x27t alter", "dont alter",
    "don\x27t update", "dont update",
    "don\x27t add", "dont add",
    "don\x27t remove", "dont remove",
    "don\x27t delete", "dont delete",
    "don\x27t refactor", "dont refactor",
    "only change", "only modify", "only fix", "only in", "only the",
    "just that one", "just this one", "just that file",
    "without changing", "without modifying",
    "preserve the", "keep it the same", "keep everything else",
    "leave it", "leave that", "leave the",
    "not the entire", "not everything",
    "that file only", "this file only" ]

/-- Output-format phrase table (clarity.go formatPhrases). -/
def formatPhrases : List String :=
  [ "as code", "in code", "not prose",
    "as a function", "as a class", "as a method", "as a snippet",
    "in json", "in yaml", "in xml", "in markdown",
    "in typescript", "in python", "in go ", "in rust", "in javascript",
    "as plain text", "as text",
    "shorter", "simpler", "more concise", "less verbose",
    "just the code", "code only",
    "without explanation", "without comments", "no comments",
    "don\x27t explain", "dont explain", "no prose",
    "as bullet", "as bullets", "in bullet", "as a list",
    "in one line", "as one", "as a single",
    "as markdown", "as a table", "in pseudocode",
    "format it as", "formatted as", "format as",
    "more readable" ]

/-- Intent-mismatch phrase table (clarity.go intentSignals). -/
def intentSignals : List String :=
  [ "that\x27s not", "thats not",
    "not quite", "not exactly",
    "not what i", "not what i asked", "not what i want",
    "not what i\x27m looking", "not looking for",
    "i meant", "what i meant",
    "i was asking", "i\x27m asking about",
    "you misunderstood", "misunderstood",
    "you missed", "you missed the point",
    "you got it wrong", "you\x27re off track", "youre off track",
    "that\x27s incorrect", "thats incorrect",
    "that\x27s the wrong", "thats the wrong",
    "that\x27s not it", "thats not it",
    "completely wrong", "totally wrong",
    "beside the point",
    "let me rephrase", "let me clarify",
    "not right" ]

/-- Clarifying-question phrase table (clarity.go clarificationSignals). -/
def clarificationSignals : List String :=
  [ "could you clarify", "can you clarify", "what do you mean",
    "do you want", "which do you", "can you specify",
    "are you referring", "could you provide more",
    "what type of", "what kind of", "can you elaborate",
    "what exactly", "could you elaborate" ]

/-- Join a list of strings with a separator (Go strings.Join). -/
def goJoin (parts : List String) (sep : String) : String :=
  match parts with
  | [] => ""
  | p :: rest => rest.foldl (fun acc q => acc ++ sep ++ q) p

/-- extractText pulls plain text from message content: a plain string is
returned as is; for an array of blocks, the nonempty texts of "text"-typed
blocks are joined with newlines; anything else yields "" (clarity.go). -/
def extractText (raw : MsgContent) : String :=
  match raw with
  | .other => ""
  | .str s => s
  | .blocks bs =>
      goJoin ((bs.filter (fun b => b.type == "text" && b.text != "")).map (fun b => b.text)) "\n"

/-- isRealUserMessage holds for genuine user prompts: a "user"-typed record
whose content is a plain string, or a nonempty block array whose first block
is not a tool_result (clarity.go). -/
def isRealUserMessage (rec : MessageRecord) : Bool :=
  if rec.Type' ≠ "user" then false
  else
    match rec.Message.Content with
    | .other => false
    | .str _ => true
    | .blocks bs =>
        match bs with
        | [] => false
        | b :: _ => b.type != "tool_result"

/-- containsAny reports whether any phrase of the list occurs in the text
(clarity.go containsAny, over the lower-cased preview characters). -/
def containsAnyL (s : List Char) (phrases : List String) : Bool :=
  phrases.any (fun p => containsChars p.data s)

/-- Lower-cased, 200-unit-truncated preview of a message text, as prepared by
detectCorrectionType (Go lowercases then slices 200 bytes; ASCII lower-casing
preserves length, so map-then-take is the same span). -/
def previewOf (text : String) : List Char :=
  (text.data.map asciiLower).take 200

/-- detectCorrectionType classifies a message: walk-back with a scope phrase
is "scope"; else walk-back with a format phrase is "format"; else an intent
signal is "intent"; else a lone walk-back falls back to "intent"; otherwise
the message is no correction (clarity.go detectCorrectionType; the Go pair
(string, bool) is an Option here). -/
def detectCorrectionType (text : String) : Option String :=
  let preview := previewOf text
  let wb := containsAnyL preview walkbackSignals
  if wb && containsAnyL preview scopePhrases then some "scope"
  else if wb && containsAnyL preview formatPhrases then some "format"
  else if containsAnyL preview intentSignals then some "intent"
  else if wb then some "intent"
  else none

/-- hasClarificationSignal checks the lower-cased full text for any
clarifying-question phrase (clarity.go). -/
def hasClarificationSignal (text : String) : Bool :=
  containsAnyL (text.data.map asciiLower) clarificationSignals

/-- UTC calendar day of an instant, modelled as floor division of the
second-timeline by 86400 (stands for Format "2006-01-02" keys, which order and
compare the same way as these day indices). -/
def dayOf (t : Int) : Int := t.fdiv 86400

/-- Weekday of a day index, 0 = Sunday .. 6 = Saturday (day 0, 1970-01-01,
was a Thursday). -/
def weekdayOf (d : Int) : Int := (d + 4).emod 7

/-- mondayOf returns the Monday of the week containing the given day index
(clarity.go mondayOf, on the day-index model of UTC dates; the Go switch over
weekdays becomes the same case analysis). -/
def mondayOfDay (d : Int) : Int :=
  let wd := weekdayOf d
  let daysBack : Int :=
    if wd = 2 then 1      -- Tuesday
    else if wd = 3 then 2 -- Wednesday
    else if wd = 4 then 3 -- Thursday
    else if wd = 5 then 4 -- Friday
    else if wd = 6 then 5 -- Saturday
    else if wd = 0 then 6 -- Sunday
    else 0                -- Monday
  d - daysBack

/-- slugToPath converts a project slug like "-Users-foo-bar" to "/Users-foo-bar"
by prefixing "/" after stripping one leading "-" (discover.go slugToPath; the
Go code only trims the prefix, it does not turn interior dashes into
separators). -/
def slugToPath (slug : String) : String :=
  if slug = "" then ""
  else
    "/" ++ (match slug.data with
            | '-' :: rest => String.mk rest
            | _ => slug)

/-- filepathBase models Go path/filepath.Base on Unix paths: "" yields ".",
trailing separators are stripped, the last component is returned, and a
path of only separators yields "/". -/
def filepathBase (path : String) : String :=
  if path = "" then "."
  else
    let cs := (path.data.reverse.dropWhile (fun c => c == '/')).reverse
    let base := (cs.reverse.takeWhile (fun c => c != '/')).reverse
    if base = [] then "/" else String.mk base

/-- containsCI is a case-insensitive substring check; an empty pattern always
matches (aggregate file containsCI: length guard plus ASCII-lower-cased byte
window scan). -/
def containsCI (s sub : String) : Bool :=
  if sub = "" then true
  else
    decide (sub.length ≤ s.length) &&
      containsChars (goToLower sub).data (goToLower s).data

/-- Per-model aggregate stats from stats-cache.json (models.go). -/
structure StatsCacheModel where
  InputTokens : Int := 0
  OutputTokens : Int := 0
  CacheReadInputTokens : Int := 0
  CacheCreationInputTokens : Int := 0
  CostUSD : ℚ := 0
deriving DecidableEq, Repr

/-- Per-day activity counts from stats-cache.json (models.go). -/
structure StatsCacheDaily where
  Date : String := ""
  MessageCount : Int := 0
  SessionCount : Int := 0
deriving DecidableEq, Repr

/-- Pre-aggregated summary file stats-cache.json (models.go StatsCache); maps
become association lists. -/
structure StatsCache where
  ModelUsage : List (String × StatsCacheModel) := []
  HourCounts : List (String × Int) := []
  TotalSessions : Int := 0
  TotalMessages : Int := 0
  DailyActivity : List StatsCacheDaily := []
deriving DecidableEq, Repr

/-- SessionSummary aggregates token usage for one session id (models.go);
main-conversation totals and subagent totals are kept apart. -/
structure SessionSummary where
  SessionID : String := ""
  ProjectName : String := ""
  ProjectSlug : String := ""
  StartTime : Int := 0
  EndTime : Int := 0
  Totals : UsageTotals := {}
  SubagentTotals : UsageTotals := {}
  ModelBreakdown : List (String × UsageTotals) := []
deriving DecidableEq, Repr

/-- CombinedTokens returns total tokens including subagents (models.go). -/
def SessionSummary.CombinedTokens (s : SessionSummary) : Int :=
  s.Totals.TotalTokens + s.SubagentTotals.TotalTokens

/-- ProjectSummary aggregates all token usage for one project (models.go). -/
structure ProjectSummary where
  Slug : String := ""
  Name : String := ""
  Path : String := ""
  Totals : UsageTotals := {}
  SessionCount : Nat := 0
  SubagentCount : Nat := 0
  ModelBreakdown : List (String × UsageTotals) := []
  Sessions : List SessionSummary := []
deriving DecidableEq, Repr

/-- DailySummary aggregates token usage for one calendar date, on the
day-index model of UTC dates (models.go). -/
structure DailySummary where
  Date : Int := 0
  Totals : UsageTotals := {}
deriving DecidableEq, Repr

/-- Insight is a single observation surfaced in the report (models.go). -/
structure Insight where
  Severity : String := ""
  Message : String := ""
deriving DecidableEq, Repr

/-- Per-correction-type rates attached to overall clarity metrics; Go float64
rates become rationals (models.go ClarityMetrics, including the
CorrectionsByType map read by the tip selector). -/
structure ClarityMetrics where
  CorrectionRate : ℚ := 0
  ClarificationRate : ℚ := 0
  FrontLoadRatio : ℚ := 0
  Score : ℚ := 0
  CorrectionsByType : List (String × ℚ) := []
deriving DecidableEq, Repr

/-- Clarity metrics for one Monday-keyed week, on the day-index model of the
week-start date (models.go WeeklyClarity). -/
structure WeeklyClarity where
  WeekStart : Int := 0
  CorrectionRate : ℚ := 0
  ClarificationRate : ℚ := 0
  FrontLoadRatio : ℚ := 0
  Score : ℚ := 0
  SessionCount : Nat := 0
deriving DecidableEq, Repr

/-- Mean clarity score of sessions starting in one local hour-of-day; Score -1
marks an hour with no data (clarity.go HourlyClarityBucket). -/
structure HourlyClarityBucket where
  Hour : Int := 0
  Score : ℚ := 0
  SessionCount : Nat := 0
deriving DecidableEq, Repr

/-- CoachingTip is one actionable nudge tied to the weakest clarity metric
(the coaching file's CoachingTip, sub-typed variant). -/
structure CoachingTip where
  Metric : String := ""
  SubMetric : String := ""
  Level : String := ""
  Headline : String := ""
  Technique : String := ""
  WeakEx : String := ""
  StrongEx : String := ""
deriving DecidableEq, Repr

/-- Top-level clarity result (clarity.go ClarityReport as completed by
ComputeClarity: overall and weekly metrics, hourly buckets, best/worst hour,
tips and week-over-week score delta). Field defaults are the Go zero values,
so a literal updating only SessionCount is the insufficient-data report. -/
structure ClarityReport where
  Overall : ClarityMetrics := {}
  Weekly : List WeeklyClarity := []
  SessionCount : Nat := 0
  HourlyBuckets : List HourlyClarityBucket := []
  BestHour : Int := 0
  WorstHour : Int := 0
  Tips : List CoachingTip := []
  ScoreDelta : Option ℚ := none
deriving DecidableEq, Repr

/-- Top-level result of the aggregation phase (models.go AggregatedReport). -/
structure AggregatedReport where
  Grand : UsageTotals := {}
  ModelSummaries : List (String × UsageTotals) := []
  Projects : List ProjectSummary := []
  Sessions : List SessionSummary := []
  Daily : List DailySummary := []
  ParseErrors : Nat := 0
  Insights : List Insight := []
  DateFrom : Int := 0
  DateTo : Int := 0
  FilterDays : Int := 0
  FilterProject : String := ""
  PeakHour : Int := -1
  Clarity : Option ClarityReport := none
deriving DecidableEq, Repr

/-- AggregateOptions controls filtering applied before aggregation (the
aggregate file's AggregateOptions). -/
structure AggregateOptions where
  Days : Int := 0
  Project : String := ""
  StatsCache : Option StatsCache := none
deriving DecidableEq, Repr

/-- Mutable state of the aggregation loop: the grand and per-model
accumulators kept on the report plus the per-slug project, per-session,
per-day and slug-to-cwd maps local to Aggregate. -/
structure AggState where
  Grand : UsageTotals := {}
  ModelSummaries : List (String × UsageTotals) := []
  projectMap : List (String × ProjectSummary) := []
  sessionMap : List (String × SessionSummary) := []
  dailyMap : List (Int × UsageTotals) := []
  slugCWD : List (String × String) := []
  DateFrom : Int := 0
  DateTo : Int := 0
  ParseErrors : Nat := 0
deriving DecidableEq, Repr

/-- Fresh project accumulator for a slug (the aggregate file's
getOrCreateProject). -/
def freshProject (slug : String) : ProjectSummary := { Slug := slug }

/-- Fresh session accumulator for a session id and owning slug (the aggregate
file's getOrCreateSession). -/
def freshSession (sessionID projectSlug : String) : SessionSummary :=
  { SessionID := sessionID, ProjectSlug := projectSlug }

/-- Session-bucket update for one record: subagent-file usage goes to
SubagentTotals, session-file usage to the main totals and the session's model
breakdown; afterwards the session time range is widened by any non-zero
timestamp (the aggregate file, per-session part of the record loop). -/
def sessApply (kind : FileKind) (model : String) (u : TokenUsage) (cost : ℚ)
    (ts : Int) (s : SessionSummary) : SessionSummary :=
  let s :=
    if kind = .KindSubagent then
      { s with SubagentTotals := s.SubagentTotals.Add u cost }
    else
      { s with Totals := s.Totals.Add u cost,
               ModelBreakdown := upsert model (fun t => t.Add u cost) {} s.ModelBreakdown }
  if ts ≠ 0 then
    let s := if s.StartTime = 0 ∨ ts < s.StartTime then { s with StartTime := ts } else s
    if ts > s.EndTime then { s with EndTime := ts } else s
  else s

/-- Project-bucket update for one record: fold the usage into the project's
totals and its per-model breakdown (the aggregate file, per-project part of
the record loop). -/
def projApply (model : String) (u : TokenUsage) (cost : ℚ)
    (p : ProjectSummary) : ProjectSummary :=
  { p with
    Totals := p.Totals.Add u cost
    ModelBreakdown := upsert model (fun t => t.Add u cost) {} p.ModelBreakdown }

/-- Fold one surviving record into every accumulator: date range, grand
totals, model bucket, project bucket, session bucket, and day bucket (the
aggregate file, record loop body after the filters). -/
def applyRecord (fi : FileInfo) (st : AggState) (rec : MessageRecord) : AggState :=
  let model := rec.Message.Model
  let usage := rec.Message.Usage
  let cost := ComputeCost model usage
  { st with
    DateFrom := if st.DateFrom = 0 ∨ rec.Timestamp < st.DateFrom then rec.Timestamp else st.DateFrom
    DateTo := if rec.Timestamp > st.DateTo then rec.Timestamp else st.DateTo
    Grand := st.Grand.Add usage cost
    ModelSummaries := upsert model (fun t => t.Add usage cost) {} st.ModelSummaries
    projectMap := upsert fi.ProjectSlug (projApply model usage cost)
      (freshProject fi.ProjectSlug) st.projectMap
    sessionMap := upsert rec.SessionID
      (sessApply fi.Kind model usage cost rec.Timestamp)
      (freshSession rec.SessionID fi.ProjectSlug) st.sessionMap
    dailyMap := upsert (dayOf rec.Timestamp) (fun t => t.Add usage cost) {} st.dailyMap }

/-- Record the first non-empty working directory seen for a slug (the
aggregate file, top of the record loop). -/
def captureCWD (slug : String) (st : AggState) (rec : MessageRecord) : AggState :=
  if rec.CWD ≠ "" ∧ lookupD st.slugCWD slug "" = "" then
    { st with slugCWD := upsert slug (fun _ => rec.CWD) "" st.slugCWD }
  else st

/-- Date filter plus accumulation for one record whose working directory has
already been captured: with a day window, records strictly before the cutoff
instant now − Days·86400 are dropped (the aggregate file, date filter). -/
def recordTail (opts : AggregateOptions) (now : Int) (fi : FileInfo)
    (st : AggState) (rec : MessageRecord) : AggState :=
  if opts.Days > 0 ∧ rec.Timestamp < now - opts.Days * 86400 then st
  else applyRecord fi st rec

/-- Full per-record step: capture the working directory, then date-filter and
accumulate. -/
def recordStep (opts : AggregateOptions) (now : Int) (fi : FileInfo)
    (st : AggState) (rec : MessageRecord) : AggState :=
  recordTail opts now fi (captureCWD fi.ProjectSlug st rec) rec

/-- Project-filter acceptance check evaluated at a file's first record: the
working directory known for the slug (possibly just captured from that
record, otherwise "" and hence folder name ".") gives the folder name, and
the file passes if the slug or that name contains the filter
case-insensitively (the aggregate file, the i == 0 check inside the record
loop; note the Go code uses the raw map value and filepath.Base, with no
slugToPath fallback at this point). -/
def projectFilterAccept (filt slug : String) (slugCWDMap : List (String × String)) : Bool :=
  let cwd := lookupD slugCWDMap slug ""
  let name := filepathBase cwd
  containsCI slug filt || containsCI name filt

/-- Process one discovered file: count its parse errors, then walk its
records; with a project filter, the whole file is skipped after its first
record's working-directory capture whenever the acceptance check fails (the
aggregate file, per-file part of Aggregate; the dead first filter block,
lines 41-52, has no effect and is omitted). -/
def processFile (opts : AggregateOptions) (now : Int) (st : AggState)
    (fi : FileInfo) : AggState :=
  let st := { st with ParseErrors := st.ParseErrors + fi.parseErrors }
  match fi.records with
  | [] => st
  | r0 :: rest =>
      let st1 := captureCWD fi.ProjectSlug st r0
      if opts.Project ≠ "" ∧ projectFilterAccept opts.Project fi.ProjectSlug st1.slugCWD = false
      then st1
      else rest.foldl (recordStep opts now fi) (recordTail opts now fi st1 r0)

/-- Accumulation state after all files have been walked; everything on the
final report is assembled from this. -/
def aggStateOf (files : List FileInfo) (opts : AggregateOptions) (now : Int) : AggState :=
  files.foldl (processFile opts now) {}

/-- Insert into a sorted list, keeping elements for which `le` already holds in
front; helper for the explicit sort standing in for Go's sort.Slice (whose
order on ties is unspecified; a stable sort is one valid resolution). -/
def insertSorted (le : α → α → Bool) (x : α) : List α → List α
  | [] => [x]
  | y :: ys => if le x y then x :: y :: ys else y :: insertSorted le x ys

/-- Insertion sort by a boolean comparison; stands for Go sort.Slice. -/
def sortedBy (le : α → α → Bool) : List α → List α
  | [] => []
  | x :: xs => insertSorted le x (sortedBy le xs)

/-- Descending loop counter [n-1, n-2, ..., 0]; the iteration order of the Go
loop `for i := days - 1; i >= 0; i--`. -/
def downRange : Nat → List Nat
  | 0 => []
  | n + 1 => n :: downRange n

/-- buildDailySlice builds the per-day report slice: with a positive day
window it emits one entry per day from today−(days−1) through today in loop
order (hence ascending), zero-filled from the day map; otherwise every mapped
day sorted ascending, truncated to the most recent 30 (the aggregate file's
buildDailySlice, with dates on the day-index model). -/
def buildDailySlice (dailyMap : List (Int × UsageTotals)) (days : Int)
    (today : Int) : List DailySummary :=
  if days > 0 then
    (downRange days.toNat).map
      (fun (i : Nat) =>
        { Date := today - (i : Int), Totals := lookupD dailyMap (today - (i : Int)) {} })
  else
    let result := dailyMap.map (fun kv => ({ Date := kv.1, Totals := kv.2 } : DailySummary))
    let result := sortedBy (fun a b => decide (a.Date ≤ b.Date)) result
    if result.length > 30 then result.drop (result.length - 30) else result

/-- peakHour returns the hour with the highest count from an hour-keyed count
table, or -1 when the table is empty; unparsable keys are skipped, and among
ties the first in iteration order wins (the aggregate file's peakHour, with
strconv.Atoi modelled by String.toInt?). -/
def peakHour (hourCounts : List (String × Int)) : Int :=
  if hourCounts = [] then -1
  else
    (hourCounts.foldl
      (fun (acc : Int × Int) kv =>
        match kv.1.toInt? with
        | none => acc
        | some h => if kv.2 > acc.2 then (h, kv.2) else acc)
      (-1, 0)).1

/-- Decimal digits of a natural number, most significant first; building block
for the Sprintf verbs appearing in insight messages. -/
def natDigits (n : Nat) : List Char :=
  if h : n < 10 then [Char.ofNat (48 + n)]
  else
    have : n / 10 < n := Nat.div_lt_self (by omega) (by omega)
    natDigits (n / 10) ++ [Char.ofNat (48 + n % 10)]

/-- Render a natural number in decimal (Sprintf %d on a non-negative value). -/
def fmtNat (n : Nat) : String := String.mk (natDigits n)

/-- Render an integer in decimal (Sprintf %d). -/
def fmtInt (n : Int) : String :=
  (if n < 0 then "-" else "") ++ fmtNat n.natAbs

/-- Render a rational rounded to one fractional digit; stands for Go Sprintf
%.1f (which rounds the binary double half-to-even; the digits produced never
matter to the claims, only that messages keep their distinctive prefixes). -/
def fmtQ1 (q : ℚ) : String :=
  let n : Int := round (q * 10)
  (if n < 0 then "-" else "") ++ fmtNat (n.natAbs / 10) ++ "." ++ fmtNat (n.natAbs % 10)

/-- Render a rational rounded to an integer; stands for Go Sprintf %.0f. -/
def fmtQ0 (q : ℚ) : String :=
  let n : Int := round q
  (if n < 0 then "-" else "") ++ fmtNat n.natAbs

/-- Render an integer zero-padded to width two; stands for Go Sprintf %02d. -/
def fmtPad2 (n : Int) : String :=
  if 0 ≤ n ∧ n < 10 then "0" ++ fmtNat n.natAbs else fmtInt n

/-- fmtTokensInt formats token counts for insight messages, scaling to K or M
(the aggregate file's fmtTokensInt). -/
def fmtTokensInt (n : Int) : String :=
  if n ≥ 1000000 then fmtQ1 ((n : ℚ) / 1000000) ++ "M"
  else if n ≥ 1000 then fmtQ1 ((n : ℚ) / 1000) ++ "K"
  else fmtInt n

/-- The warning insight emitted once per model id missing from the pricing
table (the aggregate file, insight rule 5; Sprintf %q on the plain model ids
at hand is quote-wrapping). -/
def unrecognizedModelInsight (model : String) : Insight :=
  { Severity := "warn",
    Message := "Model \x22" ++ model ++ "\x22 is not in the pricing table — its cost is shown as $0.00. Add it to pricing.go." }

/-- generateInsights turns the finished usage report into ordered insights:
cache-efficiency banding, output-verbosity warning, subagent overhead, peak
hour, one warning per unrecognized model, and a parse-error warning (the
aggregate file's generateInsights; the StatsCache argument is carried but
unread, as in the source). -/
def generateInsights (r : AggregatedReport) (_sc : Option StatsCache) : List Insight :=
  let eff := r.Grand.CacheEfficiency
  let part1 : List Insight :=
    if eff ≥ 0.75 then
      [{ Severity := "good",
         Message := "Cache efficiency is excellent at " ++ fmtQ1 (eff * 100) ++ "% — your long sessions and CLAUDE.md are working well." }]
    else if eff ≥ 0.40 then
      [{ Severity := "info",
         Message := "Cache efficiency is moderate at " ++ fmtQ1 (eff * 100) ++ "%. Consider longer sessions and adding a CLAUDE.md to pre-establish context." }]
    else if r.Grand.TotalTokens > 0 then
      [{ Severity := "warn",
         Message := "Cache efficiency is low at " ++ fmtQ1 (eff * 100) ++ "%. Try longer sessions, avoid frequent restarts, and use CLAUDE.md to establish persistent context." }]
    else []
  let part2 : List Insight :=
    if r.Grand.TotalTokens > 0 then
      let outputRatio := (r.Grand.OutputTokens : ℚ) / (r.Grand.TotalTokens : ℚ)
      if outputRatio > 0.30 then
        [{ Severity := "warn",
           Message := "Output tokens are " ++ fmtQ0 (outputRatio * 100) ++ "% of total tokens — responses may be very verbose. Consider adding \x27be concise\x27 instructions to CLAUDE.md." }]
      else []
    else []
  let subagentTotal : Int := (r.Sessions.map (fun s => s.SubagentTotals.TotalTokens)).sum
  let part3 : List Insight :=
    if subagentTotal > 0 ∧ r.Grand.TotalTokens > 0 then
      let overheadPct := (subagentTotal : ℚ) / (r.Grand.TotalTokens : ℚ) * 100
      [{ Severity := "info",
         Message := "Subagents consumed " ++ fmtQ0 overheadPct ++ "% of total tokens (" ++ fmtTokensInt subagentTotal ++ " tokens). Each subagent spawns a fresh context window; cache reads in the main session keep the rest cheap." }]
    else []
  let part4 : List Insight :=
    if r.PeakHour ≥ 0 then
      [{ Severity := "info",
         Message := "Your peak usage hour is " ++ fmtPad2 r.PeakHour ++ ":00–" ++ fmtPad2 (r.PeakHour + 1) ++ ":00 local time." }]
    else []
  let part5 : List Insight :=
    r.ModelSummaries.filterMap
      (fun kv => if (LookupPricing kv.1).2 then none else some (unrecognizedModelInsight kv.1))
  let part6 : List Insight :=
    if r.ParseErrors > 0 then
      [{ Severity := "warn",
         Message := fmtNat r.ParseErrors ++ " JSONL line(s) could not be parsed (likely partial writes during streaming). Token counts may be slightly under-reported." }]
    else []
  part1 ++ part2 ++ part3 ++ part4 ++ part5 ++ part6

/-- Enrich one project accumulator with its display path and name, derived
from the first captured working directory for its slug, with the
slug-to-path heuristic as fallback (the aggregate file, post-pass project
enrichment); the map key is kept alongside for the later attachments. -/
def enrichProjectEntry (st : AggState) (kv : String × ProjectSummary) :
    String × ProjectSummary :=
  let cwd0 := lookupD st.slugCWD kv.1 ""
  let cwd := if cwd0 = "" then slugToPath kv.1 else cwd0
  (kv.1, { kv.2 with Path := cwd, Name := filepathBase cwd })

/-- Enriched project map, in insertion order. -/
def enrichedProjectMap (st : AggState) : List (String × ProjectSummary) :=
  st.projectMap.map (enrichProjectEntry st)

/-- Enrich one session accumulator with its project display name, from the
owning project when one exists, else from the slug heuristic (the aggregate
file, post-pass session enrichment). -/
def enrichSessionEntry (st : AggState) (kv : String × SessionSummary) : SessionSummary :=
  match (enrichedProjectMap st).find? (fun pkv => pkv.1 == kv.2.ProjectSlug) with
  | some pkv => { kv.2 with ProjectName := pkv.2.Name }
  | none => { kv.2 with ProjectName := filepathBase (slugToPath kv.2.ProjectSlug) }

/-- Enriched session list, in insertion order. -/
def enrichedSessions (st : AggState) : List SessionSummary :=
  st.sessionMap.map (enrichSessionEntry st)

/-- Attach each project's sessions (those whose slug is the project's map
key) and derive the session and subagent counts (the aggregate file,
attachment loop; a session whose slug has no project entry is simply not
attached). -/
def attachProjectEntry (st : AggState) (pkv : String × ProjectSummary) : ProjectSummary :=
  let ss := (enrichedSessions st).filter (fun s => s.ProjectSlug == pkv.1)
  { pkv.2 with
    Sessions := ss
    SessionCount := ss.length
    SubagentCount := (ss.filter (fun s => decide (s.SubagentTotals.TotalTokens > 0))).length }

/-- Fully attached project list, in insertion order. -/
def attachedProjects (st : AggState) : List ProjectSummary :=
  (enrichedProjectMap st).map (attachProjectEntry st)

/-- Aggregate parses all discovered files and builds the full report: the
record-loop fold, then project/session metadata enrichment from captured
working directories, session attachment, descending token rankings, the daily
slice, the peak hour and the insight list (the aggregate file's Aggregate; Go
calls time.Now twice for cutoff and daily window, modelled by the single
instant `now`). -/
def Aggregate (files : List FileInfo) (opts : AggregateOptions) (now : Int) : AggregatedReport :=
  let st := aggStateOf files opts now
  let rep : AggregatedReport :=
    { Grand := st.Grand
      ModelSummaries := st.ModelSummaries
      Projects := sortedBy (fun a b => decide (a.Totals.TotalTokens ≥ b.Totals.TotalTokens))
        (attachedProjects st)
      Sessions := sortedBy (fun a b => decide (a.CombinedTokens ≥ b.CombinedTokens))
        (enrichedSessions st)
      Daily := buildDailySlice st.dailyMap opts.Days (dayOf now)
      ParseErrors := st.ParseErrors
      DateFrom := st.DateFrom
      DateTo := st.DateTo
      FilterDays := opts.Days
      FilterProject := opts.Project
      PeakHour := match opts.StatsCache with
                  | some sc => peakHour sc.HourCounts
                  | none => -1 }
  { rep with Insights := generateInsights rep opts.StatsCache }

/-- Running clarity state of one session: ordered extracted user texts, first
assistant reply, clarification flag, correction tallies and earliest
timestamp (clarity.go sessionClarityState). -/
structure SessState where
  userMessages : List String := []
  firstAssistantText : String := ""
  hadClarification : Bool := false
  correctionCount : Int := 0
  correctionCounts : List (String × Int) := []
  startTime : Int := 0
deriving DecidableEq, Repr

/-- Fold one extracted user text into a session's clarity state: empty texts
are ignored; if at least one user message was already recorded, the text is
classified and any detected correction tallied; the text is then appended
(clarity.go ComputeClarity, the isRealUserMessage branch of the record
loop). -/
def sessUserStep (state : SessState) (text : String) : SessState :=
  if text ≠ "" then
    let state :=
      if state.userMessages.length ≥ 1 then
        match detectCorrectionType text with
        | some ctype =>
            { state with
              correctionCounts := upsert ctype (fun c => c + 1) 0 state.correctionCounts,
              correctionCount := state.correctionCount + 1 }
        | none => state
      else state
    { state with userMessages := state.userMessages ++ [text] }
  else state

/-- Fold one record into the session state map: records before a non-zero
cutoff and records with an empty session id are skipped; otherwise the
session's state tracks the earliest timestamp, user texts via sessUserStep,
and the first non-empty assistant text with its clarification flag
(clarity.go ComputeClarity, record loop). -/
def clarityRecordStep (cutoff : Int) (stateMap : List (String × SessState))
    (rec : MessageRecord) : List (String × SessState) :=
  if cutoff ≠ 0 ∧ rec.Timestamp ≠ 0 ∧ rec.Timestamp < cutoff then stateMap
  else if rec.SessionID = "" then stateMap
  else
    upsert rec.SessionID
      (fun state =>
        let state :=
          if rec.Timestamp ≠ 0 ∧ state.startTime = 0 then
            { state with startTime := rec.Timestamp }
          else state
        let state :=
          if isRealUserMessage rec then sessUserStep state (extractText rec.Message.Content)
          else state
        if rec.Type' = "assistant" ∧ state.firstAssistantText = "" then
          let text := extractText rec.Message.Content
          if text ≠ "" then
            { state with firstAssistantText := text,
                         hadClarification := hasClarificationSignal text }
          else state
        else state)
      {} stateMap

/-- Session state map after walking every main-session file's records;
subagent files are skipped outright (clarity.go ComputeClarity, file loop). -/
def clarityStateMap (files : List FileInfo) (cutoff : Int) : List (String × SessState) :=
  files.foldl
    (fun sm fi =>
      if fi.Kind ≠ FileKind.KindSession then sm
      else fi.records.foldl (clarityRecordStep cutoff) sm)
    []

/-- Per-session derived clarity metrics (clarity.go ComputeClarity, the
sessionMetrics record of the per-session loop). -/
structure SessMetrics where
  corrRate : ℚ := 0
  clarRate : ℚ := 0
  frontLoad : ℚ := 0
  score : ℚ := 0
  startTime : Int := 0
  correctionsByType : List (String × ℚ) := []
deriving DecidableEq, Repr

/-- Derive one session's clarity metrics, or nothing for a session without
user messages: denominator max(userMessageCount − 1, 1), correction rate
capped at 1, front-load ratio as first-message bytes over total bytes (0 when
total is 0), binary clarification rate, the weighted composite score, and
per-type correction rates (clarity.go ComputeClarity, per-session loop; Go
len() on strings counts bytes, hence utf8ByteSize). -/
def sessionMetricsOf (state : SessState) : Option SessMetrics :=
  let userMsgCount := state.userMessages.length
  if userMsgCount = 0 then none
  else
    let denom : Int := if (userMsgCount : Int) - 1 < 1 then 1 else (userMsgCount : Int) - 1
    let corrRate0 : ℚ := (state.correctionCount : ℚ) / (denom : ℚ)
    let corrRate := if corrRate0 > 1 then 1 else corrRate0
    let totalLen : Int := (state.userMessages.map (fun m => (m.utf8ByteSize : Int))).sum
    let frontLoad : ℚ :=
      if totalLen > 0 then (((state.userMessages.headD "").utf8ByteSize : Int) : ℚ) / (totalLen : ℚ)
      else 0
    let clarRate : ℚ := if state.hadClarification then 1 else 0
    let score : ℚ := 100 * (0.40 * frontLoad + 0.35 * (1 - corrRate) + 0.25 * (1 - clarRate))
    some
      { corrRate := corrRate, clarRate := clarRate, frontLoad := frontLoad,
        score := score, startTime := state.startTime,
        correctionsByType :=
          state.correctionCounts.map (fun kv => (kv.1, (kv.2 : ℚ) / (denom : ℚ))) }

/-- Metric list of the qualifying sessions (those with at least one user
message), in state-map order. -/
def allMetricsOf (files : List FileInfo) (cutoff : Int) : List SessMetrics :=
  (clarityStateMap files cutoff).filterMap (fun kv => sessionMetricsOf kv.2)

/-- Number of qualifying sessions feeding the clarity report. -/
def qualifyingSessionCount (files : List FileInfo) (cutoff : Int) : Nat :=
  (allMetricsOf files cutoff).length

/-- Level and one-liner for one clarity metric (clarity.go MetricInsight). -/
structure MetricInsight where
  Level : String := ""
  Oneliner : String := ""
deriving DecidableEq, Repr

/-- Banding of the overall correction rate: good below 0.10, ok below 0.25,
else warn (clarity.go CorrectionRateInsight). -/
def CorrectionRateInsight (r : ℚ) : MetricInsight :=
  if r < 0.10 then
    { Level := "good", Oneliner := "Few walk-backs — your prompts are landing first try." }
  else if r < 0.25 then
    { Level := "ok", Oneliner := "Moderate. Add a constraints block and name the output format upfront." }
  else
    { Level := "warn", Oneliner := "High. Specify scope, output format, and constraints before writing the request." }

/-- Banding of the overall clarification rate: good below 0.15, ok below
0.35, else warn (clarity.go ClarificationRateInsight). -/
def ClarificationRateInsight (r : ℚ) : MetricInsight :=
  if r < 0.15 then
    { Level := "good", Oneliner := "Model rarely needs more info — prompts are clear." }
  else if r < 0.35 then
    { Level := "ok", Oneliner := "Occasional ambiguity. Add output format and scope upfront." }
  else
    { Level := "warn", Oneliner := "Model asks frequently. Include what you want and what you don\x27t." }

/-- Banding of the overall front-load ratio: good above 0.60, ok above 0.40,
else warn (clarity.go FrontLoadRatioInsight). -/
def FrontLoadRatioInsight (r : ℚ) : MetricInsight :=
  if r > 0.60 then
    { Level := "good", Oneliner := "Strong front-loading — context is established upfront." }
  else if r > 0.40 then
    { Level := "ok", Oneliner := "Moderate. Push more context into your first message." }
  else
    { Level := "warn", Oneliner := "Paste all relevant code, constraints, and context into your first message." }

/-- Insight level a metric name resolves to against given overall metrics;
names the selector's notion of a metric being at "good" level. -/
def metricLevel (metric : String) (o : ClarityMetrics) : String :=
  if metric = "correction_rate" then (CorrectionRateInsight o.CorrectionRate).Level
  else if metric = "clarification_rate" then (ClarificationRateInsight o.ClarificationRate).Level
  else (FrontLoadRatioInsight o.FrontLoadRatio).Level

/-- Static coaching-tip bank keyed by "<metric>_<level>" and
"correction_<type>_<level>" (the coaching file's tipBank, sub-typed
variant). -/
def tipBank : List (String × List CoachingTip) :=
  [ ("correction_rate_warn",
     [ { Metric := "correction_rate", Level := "warn",
         Headline := "Write a spec comment first",
         Technique := "Before typing your request, jot down three things: what you want done, the format the output should take, and what must not change. Paste that as the opening of your prompt — it forces precision before you engage the model.",
         WeakEx := "Clean up this function",
         StrongEx := "Refactor parseConfig to reduce nesting.\nMax 2 levels deep. Keep the function signature unchanged.\nDo not alter any test files." },
       { Metric := "correction_rate", Level := "warn",
         Headline := "State all constraints upfront",
         Technique := "Corrections usually happen because the model solved the right problem with the wrong constraints. List every hard constraint in your first message: language version, existing interfaces to preserve, performance requirements, things to avoid.",
         WeakEx := "Add authentication to the API",
         StrongEx := "Add JWT auth to the /api/ routes using middleware/auth.go.\nGo 1.21, no new dependencies. Do not modify the DB schema.\nPreserve all existing handler signatures." } ]),
    ("correction_rate_ok",
     [ { Metric := "correction_rate", Level := "ok",
         Headline := "Add a \x27do not\x27 line",
         Technique := "One explicit \x27Do not X\x27 at the end of your prompt prevents the most common walk-back. Think about what the model typically does that you then have to correct, and ban it upfront.",
         WeakEx := "Improve error handling in the parser",
         StrongEx := "Improve error handling in ParseFile.\nWrap errors with fmt.Errorf for context.\nDo not change the function\x27s return types." },
       { Metric := "correction_rate", Level := "ok",
         Headline := "End with the acceptance criterion",
         Technique := "Add one sentence describing the exact outcome that satisfies you: \x27Done when X\x27. This gives the model a clear stopping condition and reduces the overshoot that leads to corrections.",
         WeakEx := "Make the tests faster",
         StrongEx := "Parallelize the test suite in parse_test.go using t.Parallel().\nDone when go test ./... completes in under 2 seconds.\nDo not change any test assertions." } ]),
    ("clarification_rate_warn",
     [ { Metric := "clarification_rate", Level := "warn",
         Headline := "Specify output format explicitly",
         Technique := "When the model asks a clarifying question it is usually about scope or format. Pre-empt this by ending your prompt with: \x27Return X in format Y. Skip Z.\x27 This removes the ambiguity before the model has to ask.",
         WeakEx := "Explain how caching works",
         StrongEx := "Explain prompt caching in 3 bullet points.\nCover: when cache hits occur and their cost impact.\nSkip API-level mechanics and pricing tables." },
       { Metric := "clarification_rate", Level := "warn",
         Headline := "Add a scope boundary",
         Technique := "Vague prompts invite clarifying questions. Add one sentence defining the boundary: what is in scope and what is out. \x27Only modify X, leave Y unchanged\x27 eliminates most ambiguity in one line.",
         WeakEx := "Fix the bug in the parser",
         StrongEx := "Fix the nil pointer dereference in ParseFile at line 43.\nModify only that function.\nDo not refactor surrounding code." } ]),
    ("clarification_rate_ok",
     [ { Metric := "clarification_rate", Level := "ok",
         Headline := "State the output medium",
         Technique := "Many clarifying questions are about format. State whether you want code, prose, a table, or bullet points. \x27Show me as a code example\x27 vs. \x27explain in prose\x27 eliminates a whole class of back-and-forth.",
         WeakEx := "Show me how to handle errors in Go",
         StrongEx := "Show Go error handling as a code snippet.\nCover: fmt.Errorf wrapping, sentinel errors, custom types.\nNo prose — code only." },
       { Metric := "clarification_rate", Level := "ok",
         Headline := "Give a length budget",
         Technique := "Ambiguity about depth causes clarifying questions. Telling the model how much you want — \x27one paragraph\x27, \x275 bullet points\x27, \x27a single function\x27 — gives it a concrete scope to work within.",
         WeakEx := "Summarize what this code does",
         StrongEx := "Summarize what main.go does in 3 bullet points.\nAudience: a new contributor.\nNo implementation details." } ]),
    ("front_load_ratio_warn",
     [ { Metric := "front_load_ratio", Level := "warn",
         Headline := "Paste everything in the first message",
         Technique := "Context trickled in across turns cannot be cached and forces the model to re-process state it has already seen. Assemble all relevant code, file paths, and constraints into one opening prompt — long first messages are better than short back-and-forth.",
         WeakEx := "Update the parser\n[next turn] Here\x27s the relevant code: ...\n[next turn] Oh and don\x27t change the interface",
         StrongEx := "Update ParseFile in parse.go to handle empty lines gracefully.\n[paste full function]\nDo not change the function signature." },
       { Metric := "front_load_ratio", Level := "warn",
         Headline := "Use a prompt template",
         Technique := "A four-part structure prevents context from leaking out gradually. Use: Task (one sentence) → Context (relevant code or files) → Constraints (what must not change) → Output (format you expect).",
         WeakEx := "Make the tests pass",
         StrongEx := "Task: fix 3 failing tests in parse_test.go.\nContext: [paste tests + ParseFile].\nConstraints: do not alter test assertions.\nOutput: only the corrected ParseFile function." } ]),
    ("front_load_ratio_ok",
     [ { Metric := "front_load_ratio", Level := "ok",
         Headline := "Lead with the relevant code",
         Technique := "If you are referencing code, paste it in the opening prompt rather than waiting for the model to ask. The model handles more context than you might expect, and a complete first message means better cache utilization on every follow-up.",
         WeakEx := "Can you improve the performance here?\n[next turn] Here\x27s the hot path: ...",
         StrongEx := "Optimize this hot path for latency. [paste function]\nReduce allocations. Keep the same external interface." },
       { Metric := "front_load_ratio", Level := "ok",
         Headline := "Paste error output with the question",
         Technique := "When debugging, the error message, relevant stack trace, and surrounding code all belong in the first message — not discovered through follow-ups. The model solves it in one shot when the evidence is already there.",
         WeakEx := "Why is my test failing?",
         StrongEx := "Why is TestParseFile failing? Error:\n[paste error output]\nRelevant code:\n[paste function + test case]" } ]),
    ("correction_scope_warn",
     [ { Metric := "correction_rate", SubMetric := "scope", Level := "warn",
         Headline := "Write a constraints block",
         Technique := "Scope corrections happen when the model touches files or interfaces you didn\x27t want changed. Add a dedicated constraints block to every prompt: list files that are off-limits, interfaces that must stay intact, and folders that are read-only. Put it right after your task description so it\x27s impossible to miss.",
         WeakEx := "Refactor the parser",
         StrongEx := "Refactor parseConfig in config/parser.go to reduce nesting.\nConstraints: only modify config/parser.go. Do not touch config/types.go, any test files, or the public ParseConfig signature." },
       { Metric := "correction_rate", SubMetric := "scope", Level := "warn",
         Headline := "Scope the task by file, not topic",
         Technique := "Describing a task by topic (\x27fix error handling\x27) leaves scope ambiguous — the model may touch every file related to that topic. Instead, name the exact file and function. \x27Fix error handling in ParseFile in parse.go\x27 makes the boundary unambiguous without any extra constraints line.",
         WeakEx := "Fix the error handling across the codebase",
         StrongEx := "Fix error handling in ParseFile in parse.go only.\nWrap errors with fmt.Errorf. Do not modify any other files." } ]),
    ("correction_scope_ok",
     [ { Metric := "correction_rate", SubMetric := "scope", Level := "ok",
         Headline := "List what must stay unchanged",
         Technique := "Even when corrections are infrequent, listing the untouchable parts up front avoids the walk-back entirely. One line — \x27Do not modify X, Y, or Z\x27 — gives the model a clear boundary and lets it focus on what you actually want changed.",
         WeakEx := "Add a cache to the session loader",
         StrongEx := "Add an in-memory cache to loadSession in session.go.\nDo not modify the Session struct, any callers, or test files." },
       { Metric := "correction_rate", SubMetric := "scope", Level := "ok",
         Headline := "Use \x27Only X, nothing else\x27",
         Technique := "The phrase \x27only X, nothing else\x27 is the most compact scope constraint. It fits in any prompt without adding bulk and leaves zero ambiguity about how far the change should spread.",
         WeakEx := "Update the README",
         StrongEx := "Update the Installation section in README.md only, nothing else.\nAdd a note about the --serve flag." } ]),
    ("correction_format_warn",
     [ { Metric := "correction_rate", SubMetric := "format", Level := "warn",
         Headline := "Specify output medium first",
         Technique := "Format corrections mean the model returned prose when you wanted code, or a block when you wanted inline. Put the output medium in the very first sentence — before the task description. \x27Show me as a code snippet: ...\x27 is harder to misread than burying the format requirement at the end.",
         WeakEx := "How do I implement a retry loop in Go?",
         StrongEx := "Show me as a Go code snippet: a retry loop with exponential backoff.\nNo prose — code only. Use stdlib only." },
       { Metric := "correction_rate", SubMetric := "format", Level := "warn",
         Headline := "End with a format line",
         Technique := "If you can\x27t lead with the format, always close with one explicit format line. \x27Return only the modified function, no explanation\x27 at the end of any prompt prevents the most common format walk-back: the model returning a full file or a wall of prose around a small change.",
         WeakEx := "Update the error message in validateInput",
         StrongEx := "Update the error message in validateInput to include the field name.\nReturn only the modified function, no explanation." } ]),
    ("correction_format_ok",
     [ { Metric := "correction_rate", SubMetric := "format", Level := "ok",
         Headline := "Name the anti-format explicitly",
         Technique := "Saying what you don\x27t want is as effective as saying what you do. \x27No prose\x27, \x27no comments\x27, \x27no markdown\x27 each eliminate a whole class of unwanted output in one word. Add one anti-format line to any prompt where you\x27ve historically walked back the format.",
         WeakEx := "Summarize how the cache works",
         StrongEx := "Summarize how the cache works in 3 bullet points. No prose, no headers." },
       { Metric := "correction_rate", SubMetric := "format", Level := "ok",
         Headline := "Give a length budget",
         Technique := "Length corrections happen when the model returns more (or less) than you expected. A length budget — \x27one function\x27, \x27two sentences\x27, \x27under 20 lines\x27 — sets a concrete ceiling and cuts overshoot before it starts.",
         WeakEx := "Write a helper to parse ISO dates",
         StrongEx := "Write a Go helper function to parse ISO 8601 dates.\nUnder 15 lines. No error wrapping, just return the zero time on failure." } ]),
    ("correction_intent_warn",
     [ { Metric := "correction_rate", SubMetric := "intent", Level := "warn",
         Headline := "Lead with the task, not the context",
         Technique := "Intent corrections happen when the model misreads what you want because the context came first and buried the actual ask. Flip the structure: state the goal in the first sentence, then provide supporting context. \x27Goal: X. Context: Y.\x27 is almost never misread.",
         WeakEx := "I\x27ve been working on a parser and the tests keep failing because of how nil is handled. Can you help?",
         StrongEx := "Fix the nil pointer dereference in ParseFile at line 43.\nContext: the tests fail when input is an empty string; the nil check at line 38 is not reached." },
       { Metric := "correction_rate", SubMetric := "intent", Level := "warn",
         Headline := "State the goal, not just the action",
         Technique := "Describing the action (\x27add logging\x27) without the goal (\x27so I can trace request flow\x27) leaves the model free to implement it in ways you don\x27t expect. One goal sentence — \x27so that X\x27 — anchors the implementation and prevents the most common class of intent mismatch.",
         WeakEx := "Add logging to the HTTP handler",
         StrongEx := "Add request/response logging to the HTTP handler so I can trace latency per endpoint.\nLog to stderr. Use log/slog. Do not log request bodies." } ]),
    ("correction_intent_ok",
     [ { Metric := "correction_rate", SubMetric := "intent", Level := "ok",
         Headline := "Anchor with an example",
         Technique := "When intent is subtle, a concrete example disambiguates faster than any description. \x27Like X, but for Y\x27 or \x27Output should look like: [example]\x27 eliminates the gap between what you mean and what the model infers.",
         WeakEx := "Reformat the output to be more readable",
         StrongEx := "Reformat the output to match this structure:\n  Model     Tokens    Cost\n  ------    ------    ----\n  sonnet    1.2M      $1.20\nAlign columns, right-justify numbers." },
       { Metric := "correction_rate", SubMetric := "intent", Level := "ok",
         Headline := "Use \x27I want X, not Y\x27",
         Technique := "The \x27X, not Y\x27 pattern is the most efficient way to pre-empt an intent mismatch. It takes one extra clause and rules out the exact wrong answer before the model can produce it.",
         WeakEx := "Explain the caching strategy",
         StrongEx := "Explain the caching strategy — I want a conceptual overview, not implementation details or code." } ]) ]

/-- Weakest-metric choice of the tip selector: normalized gap-to-good per
metric (clamped at 0), largest gap wins, ties resolved correction, then
clarification, then front-load; the chosen metric is paired with its insight
level (the coaching file's SelectCoachingTips, gap computation). -/
def worstMetricOf (o : ClarityMetrics) : String × String :=
  let corrGap := if o.CorrectionRate - 0.10 < 0 then 0 else o.CorrectionRate - 0.10
  let clarGap := if o.ClarificationRate - 0.15 < 0 then 0 else o.ClarificationRate - 0.15
  let frontGap0 := (0.60 - o.FrontLoadRatio) / 0.60
  let frontGap := if frontGap0 < 0 then 0 else frontGap0
  if corrGap ≥ clarGap ∧ corrGap ≥ frontGap then
    ("correction_rate", (CorrectionRateInsight o.CorrectionRate).Level)
  else if clarGap ≥ frontGap then
    ("clarification_rate", (ClarificationRateInsight o.ClarificationRate).Level)
  else ("front_load_ratio", (FrontLoadRatioInsight o.FrontLoadRatio).Level)

/-- Tail of the tip selector once the weakest metric and its level are
known: nothing for a metric already at good level; for the correction-rate
metric with at least one typed correction, one randomly drawn tip per
detected type in fixed scope/format/intent order; otherwise a single tip
from the metric-and-level bank, with a warn-tier fallback for a missing key
(the coaching file's SelectCoachingTips, lower half). -/
def selectTipsFor (rng : Nat → Nat) (o : ClarityMetrics)
    (worstMetric worstLevel : String) : List CoachingTip :=
  if worstLevel = "good" then []
  else
    let typed : List CoachingTip :=
      if worstMetric = "correction_rate" ∧ o.CorrectionsByType.length > 0 then
        ["scope", "format", "intent"].filterMap
          (fun ctype =>
            if lookupD o.CorrectionsByType ctype 0 = 0 then none
            else
              let bucket := lookupD tipBank ("correction_" ++ ctype ++ "_" ++ worstLevel) []
              if bucket.length > 0 then
                some (bucket.getD (rng bucket.length % bucket.length) {})
              else none)
      else []
    if typed.length > 0 then typed
    else
      let bucket0 := lookupD tipBank (worstMetric ++ "_" ++ worstLevel) []
      let bucket := if bucket0.length = 0 then lookupD tipBank (worstMetric ++ "_warn") [] else bucket0
      if bucket.length = 0 then []
      else [bucket.getD (rng bucket.length % bucket.length) {}]

/-- SelectCoachingTips returns one tip per detected correction type when the
correction rate is the weakest metric, else a single tip for the weakest
metric; no tip when data is insufficient or every metric is good; the weakest
metric is the one with the largest normalized gap-to-good, ties resolved
correction, then clarification, then front-load (the coaching file's
SelectCoachingTips; Go rand.Intn is modelled by the `rng` argument reduced
modulo the bucket size). -/
def SelectCoachingTips (rng : Nat → Nat) (r : ClarityReport) : List CoachingTip :=
  if r.SessionCount < 2 then []
  else
    let o := r.Overall
    let ci := CorrectionRateInsight o.CorrectionRate
    let cli := ClarificationRateInsight o.ClarificationRate
    let fli := FrontLoadRatioInsight o.FrontLoadRatio
    if ci.Level = "good" ∧ cli.Level = "good" ∧ fli.Level = "good" then []
    else selectTipsFor rng o (worstMetricOf o).1 (worstMetricOf o).2

/-- computeWeekDelta returns the score change between the two most recent
weekly entries, or nothing below two entries (the coaching file's
computeWeekDelta). -/
def computeWeekDelta (weekly : List WeeklyClarity) : Option ℚ :=
  if weekly.length < 2 then none
  else some ((weekly.getD (weekly.length - 1) {}).Score - (weekly.getD (weekly.length - 2) {}).Score)

/-- Per-week accumulator of session metrics (clarity.go weekAccum). -/
structure WeekAccum where
  corrSum : ℚ := 0
  clarSum : ℚ := 0
  frontSum : ℚ := 0
  scoreSum : ℚ := 0
  count : Nat := 0
deriving DecidableEq, Repr

/-- State of the hourly bucket loop: buckets built so far plus the running
best/worst hour and score (clarity.go ComputeClarity, hourly grouping; Go
initialises bestHour and worstHour to -1, bestScore to -1.0 and worstScore
to 101.0). -/
structure HourPass where
  buckets : List HourlyClarityBucket := []
  bestHour : Int := -1
  worstHour : Int := -1
  bestScore : ℚ := -1
  worstScore : ℚ := 101
deriving DecidableEq, Repr

/-- Overall clarity metrics as unweighted means of the per-session metrics,
including the per-type correction-rate means (clarity.go ComputeClarity,
overall part). -/
def overallOf (allMetrics : List SessMetrics) : ClarityMetrics :=
  let n : ℚ := (allMetrics.length : ℚ)
  let typeSums : List (String × ℚ) :=
    allMetrics.foldl
      (fun ts m => m.correctionsByType.foldl
        (fun ts kv => upsert kv.1 (fun x => x + kv.2) 0 ts) ts)
      []
  { CorrectionRate := (allMetrics.map (fun m => m.corrRate)).sum / n
    ClarificationRate := (allMetrics.map (fun m => m.clarRate)).sum / n
    FrontLoadRatio := (allMetrics.map (fun m => m.frontLoad)).sum / n
    Score := (allMetrics.map (fun m => m.score)).sum / n
    CorrectionsByType := typeSums.map (fun kv => (kv.1, kv.2 / n)) }

/-- Weekly clarity buckets: sessions with a known start grouped by the Monday
of their start day, averaged per bucket, sorted ascending by week start
(clarity.go ComputeClarity, weekly grouping). -/
def weeklyOf (allMetrics : List SessMetrics) : List WeeklyClarity :=
  let weekMap : List (Int × WeekAccum) :=
    allMetrics.foldl
      (fun wm m =>
        if m.startTime = 0 then wm
        else
          upsert (mondayOfDay (dayOf m.startTime))
            (fun wa =>
              { wa with corrSum := wa.corrSum + m.corrRate, clarSum := wa.clarSum + m.clarRate,
                        frontSum := wa.frontSum + m.frontLoad, scoreSum := wa.scoreSum + m.score,
                        count := wa.count + 1 })
            {} wm)
      []
  let weekly0 : List WeeklyClarity :=
    weekMap.filterMap
      (fun kv =>
        if kv.2.count = 0 then none
        else
          let cnt : ℚ := (kv.2.count : ℚ)
          some { WeekStart := kv.1, CorrectionRate := kv.2.corrSum / cnt,
                 ClarificationRate := kv.2.clarSum / cnt, FrontLoadRatio := kv.2.frontSum / cnt,
                 Score := kv.2.scoreSum / cnt, SessionCount := kv.2.count })
  sortedBy (fun a b => decide (a.WeekStart ≤ b.WeekStart)) weekly0

/-- Hourly score accumulator: for each local hour of day, the summed session
scores and sample count (clarity.go ComputeClarity, hourly grouping). -/
def hourMapOf (localHour : Int → Nat) (allMetrics : List SessMetrics) : Nat → ℚ × Nat :=
  allMetrics.foldl
    (fun f m =>
      if m.startTime = 0 then f
      else
        let h := localHour m.startTime % 24
        fun h' => if h' = h then ((f h').1 + m.score, (f h').2 + 1) else f h')
    (fun _ => (0, 0))

/-- One step of the Go hourly loop: append the hour's bucket (score -1 when
empty) and update the running best and worst hour. -/
def hourPassStep (hourMap : Nat → ℚ × Nat) (acc : HourPass) (h : Nat) : HourPass :=
  let b0 : HourlyClarityBucket := { Hour := (h : Int), Score := -1 }
  if (hourMap h).2 > 0 then
    let avg := (hourMap h).1 / ((hourMap h).2 : ℚ)
    let b : HourlyClarityBucket := { b0 with Score := avg, SessionCount := (hourMap h).2 }
    let acc := { acc with buckets := acc.buckets ++ [b] }
    let acc :=
      if avg > acc.bestScore then { acc with bestScore := avg, bestHour := (h : Int) }
      else acc
    if avg < acc.worstScore then { acc with worstScore := avg, worstHour := (h : Int) }
    else acc
  else { acc with buckets := acc.buckets ++ [b0] }

/-- ComputeClarity processes main-session files into a ClarityReport: state
per session, per-session metrics, insufficient-data early return below two
qualifying sessions, overall means, weekly buckets keyed by Monday, hourly
buckets by local hour with best/worst exposure rules, coaching tips and the
week-over-week delta (clarity.go ComputeClarity; the local-time hour of a
start instant is supplied by `localHour`, and tip randomness by `rng`). -/
def ComputeClarity (files : List FileInfo) (cutoff : Int)
    (localHour : Int → Nat) (rng : Nat → Nat) : ClarityReport :=
  let allMetrics := allMetricsOf files cutoff
  let sessionCount := allMetrics.length
  if sessionCount < 2 then { SessionCount := sessionCount }
  else
    let pass : HourPass := (List.range 24).foldl (hourPassStep (hourMapOf localHour allMetrics)) {}
    let hoursWithData := (pass.buckets.filter (fun b => decide (b.Score ≥ 0))).length
    let rep0 : ClarityReport :=
      { Overall := overallOf allMetrics
        Weekly := weeklyOf allMetrics
        SessionCount := sessionCount
        HourlyBuckets := pass.buckets
        BestHour := if hoursWithData < 2 then -1 else pass.bestHour
        WorstHour := if hoursWithData < 2 then -1 else pass.worstHour }
    { rep0 with Tips := SelectCoachingTips rng rep0, ScoreDelta := computeWeekDelta rep0.Weekly }

/-- Sum of a measure over the entries of an association list. -/
def pairSum (g : α × β → Int) : List (α × β) → Int
  | [] => 0
  | kv :: rest => g kv + pairSum g rest

/-- Sum of a measure over the entries of an association list that satisfy a
predicate. -/
def pairSumIf (p : α × β → Bool) (g : α × β → Int) : List (α × β) → Int
  | [] => 0
  | kv :: rest => (if p kv then g kv else 0) + pairSumIf p g rest

/-- Aggregation-loop invariant backing the project/session totals relation:
every session's slug agrees with the global session-to-slug assignment, the
project map has no duplicate slugs, and each slug's project totals equal the
combined (main plus subagent) totals of its sessions. -/
def C2Inv (σ : String → String) (st : AggState) : Prop :=
  (∀ kv ∈ st.sessionMap, kv.2.ProjectSlug = σ kv.1) ∧
  ((st.projectMap.map Prod.fst).Nodup) ∧
  (∀ P : String,
    pairSumIf (fun kv => kv.1 == P) (fun kv => kv.2.Totals.TotalTokens) st.projectMap =
    pairSumIf (fun kv => kv.2.ProjectSlug == P) (fun kv => kv.2.CombinedTokens) st.sessionMap)

/-- Concrete two-file input (one session file and one subagent file of the
same project and session) used to witness the project/session totals
relation. -/
def c2witnessFiles : List FileInfo :=
  [ { Kind := FileKind.KindSession, ProjectSlug := "p", SessionID := "s",
      records := [{ Type' := "assistant", SessionID := "s", Timestamp := 1000,
                    Message := { Model := "m", Usage := { InputTokens := 3 } } }] },
    { Kind := FileKind.KindSubagent, ProjectSlug := "p", SessionID := "s",
      records := [{ Type' := "assistant", SessionID := "s", Timestamp := 2000,
                    Message := { Model := "m", Usage := { InputTokens := 5 } } }] } ]

/-- Concrete single-session input (one user message) used to witness the
insufficient-data behaviour of the clarity engine. -/
def c6witnessFiles : List FileInfo :=
  [ { Kind := FileKind.KindSession, ProjectSlug := "p", SessionID := "s1",
      records := [{ Type' := "user", SessionID := "s1", Timestamp := 1000,
                    Message := { Content := MsgContent.str "hello build me a thing" } }] } ]

/-- Concrete all-good clarity report used to witness that the tip selector
stays silent when every metric is at good level. -/
def c7goodReport : ClarityReport :=
  { SessionCount := 5,
    Overall := { CorrectionRate := 0, ClarificationRate := 0, FrontLoadRatio := 1 } }

/-- Concrete high-correction clarity report used to witness that a returned
tip always targets a non-good metric. -/
def c7badReport : ClarityReport :=
  { SessionCount := 2,
    Overall := { CorrectionRate := 1, ClarificationRate := 0, FrontLoadRatio := 1 } }

/-- Number of occurrences of an element in a list; proof-side counter for
the exactly-one-warning-per-unknown-model property. -/
def countEq [DecidableEq α] (x : α) : List α → Nat
  | [] => 0
  | y :: rest => (if y = x then 1 else 0) + countEq x rest

/-- First (and only) record of the C9 example file: no working directory,
one input token. -/
def c9r0 : MessageRecord :=
  { Type' := "assistant", SessionID := "s", Timestamp := 0, CWD := "",
    Message := { Model := "m", Usage := { InputTokens := 1 } } }

/-- C9 example file: a session file under a dash-slug whose records never
carry a working directory. -/
def c9fi : FileInfo :=
  { Kind := .KindSession, ProjectSlug := "-Users-foo-bar", SessionID := "s",
    AgentID := "", records := [c9r0], parseErrors := 0 }

theorem pairSum_eq_sum_map (g : α × β → Int) (m : List (α × β)) :
    pairSum g m = (m.map g).sum := by
  induction m with
  | nil => rfl
  | cons kv rest ih => simp [pairSum, ih]

theorem pairSum_upsert [DecidableEq α] (g : α × β → Int) (k : α) (f : β → β)
    (d : β) (δ : Int) (hf : ∀ v, g (k, f v) = g (k, v) + δ) (hd : g (k, d) = 0)
    (m : List (α × β)) :
    pairSum g (upsert k f d m) = pairSum g m + δ := by
  induction m with
  | nil => simp [upsert, pairSum, hf d, hd]
  | cons kv rest ih =>
      obtain ⟨k', v⟩ := kv
      by_cases h : k' = k
      · subst h
        simp [upsert, pairSum, hf v]
        ring
      · simp [upsert, h, pairSum, ih]
        ring

theorem pairSumIf_upsert [DecidableEq α] (p : α × β → Bool) (g : α × β → Int)
    (k : α) (f : β → β) (d : β) (δ : Int) (b : Bool) (m : List (α × β))
    (hm : ∀ kv ∈ m, kv.1 = k → p kv = b)
    (hpf : ∀ v, p (k, f v) = p (k, v))
    (hgf : ∀ v, g (k, f v) = g (k, v) + δ)
    (hpd : p (k, d) = b) (hgd : g (k, d) = 0) :
    pairSumIf p g (upsert k f d m) = pairSumIf p g m + (if b then δ else 0) := by
  induction m with
  | nil =>
      simp only [upsert, pairSumIf]
      rw [hpf d, hpd, hgf d, hgd]
      cases b <;> simp
  | cons kv rest ih =>
      obtain ⟨k', v⟩ := kv
      by_cases h : k' = k
      · have hb : p (k, v) = b := by
          have := hm (k', v) (by simp) h
          rwa [h] at this
        simp only [upsert, if_pos h, pairSumIf, h]
        rw [hpf v, hb, hgf v]
        cases b <;> (simp; try ring)
      · simp only [upsert, if_neg h, pairSumIf]
        rw [ih (fun kv hkv hk => hm kv (by simp [hkv]) hk)]
        ring

theorem mem_upsert_closure [DecidableEq α] (k : α) (f : β → β) (d : β)
    (Q : α × β → Prop) (m : List (α × β))
    (hm : ∀ kv ∈ m, Q kv)
    (hf : ∀ v, Q (k, v) → Q (k, f v))
    (hd : Q (k, f d)) :
    ∀ kv ∈ upsert k f d m, Q kv := by
  induction m with
  | nil => simpa [upsert] using hd
  | cons kv₀ rest ih =>
      obtain ⟨k', v⟩ := kv₀
      by_cases h : k' = k
      · intro kv hkv
        simp only [upsert, if_pos h] at hkv
        rcases List.mem_cons.mp hkv with h1 | h1
        · subst h1
          have hq : Q (k, v) := by
            have := hm (k', v) (by simp)
            rwa [h] at this
          have := hf v hq
          rwa [← h] at this
        · exact hm kv (by simp [h1])
      · intro kv hkv
        simp only [upsert, if_neg h] at hkv
        rcases List.mem_cons.mp hkv with h1 | h1
        · subst h1; exact hm (k', v) (by simp)
        · exact ih (fun kv hkv => hm kv (by simp [hkv])) kv h1

theorem keys_upsert [DecidableEq α] (k : α) (f : β → β) (d : β) (m : List (α × β)) :
    (upsert k f d m).map Prod.fst =
      if k ∈ m.map Prod.fst then m.map Prod.fst else m.map Prod.fst ++ [k] := by
  induction m with
  | nil => simp [upsert]
  | cons kv rest ih =>
      obtain ⟨k', v⟩ := kv
      by_cases h : k' = k
      · simp [upsert, if_pos h, h]
      · have hne : ¬k = k' := fun hh => h hh.symm
        simp only [upsert, if_neg h, List.map_cons, ih]
        by_cases hk : k ∈ rest.map Prod.fst <;> simp [hk, hne]

theorem keys_upsert_nodup [DecidableEq α] (k : α) (f : β → β) (d : β)
    (m : List (α × β)) (h : (m.map Prod.fst).Nodup) :
    ((upsert k f d m).map Prod.fst).Nodup := by
  rw [keys_upsert]
  by_cases hk : k ∈ m.map Prod.fst
  · simpa [hk]
  · simpa [hk] using List.Nodup.append h (by simp) (by simpa using hk)

theorem lookupD_upsert_self [DecidableEq α] (k : α) (f : β → β) (d d' : β)
    (m : List (α × β)) :
    lookupD (upsert k f d m) k d' = f (lookupD m k d) := by
  induction m with
  | nil => simp [upsert, lookupD]
  | cons kv rest ih =>
      obtain ⟨k', v⟩ := kv
      by_cases h : k' = k
      · simp [upsert, if_pos h, lookupD, h]
      · simp [upsert, if_neg h, lookupD, h, ih]

theorem lookupD_upsert_ne [DecidableEq α] (k k' : α) (f : β → β) (d d' : β)
    (m : List (α × β)) (h : k' ≠ k) :
    lookupD (upsert k f d m) k' d' = lookupD m k' d' := by
  induction m with
  | nil =>
      simp only [upsert, lookupD]
      rw [if_neg (fun hh => h hh.symm)]
  | cons kv rest ih =>
      obtain ⟨k₀, v⟩ := kv
      by_cases h0 : k₀ = k
      · have hne : ¬k₀ = k' := fun hh => h (h0 ▸ hh.symm ▸ rfl)
        simp only [upsert, if_pos h0, lookupD]
        rw [if_neg hne, if_neg hne]
      · simp only [upsert, if_neg h0, lookupD]
        by_cases h1 : k₀ = k' <;> simp [h1, ih]

theorem mem_insertSorted (le : α → α → Bool) (x y : α) (l : List α) :
    y ∈ insertSorted le x l ↔ y = x ∨ y ∈ l := by
  induction l with
  | nil => simp [insertSorted]
  | cons z rest ih =>
      by_cases h : le x z
      · simp [insertSorted, h]
      · simp only [insertSorted, if_neg h, List.mem_cons, ih]
        tauto

theorem mem_sortedBy (le : α → α → Bool) (x : α) (l : List α) :
    x ∈ sortedBy le l ↔ x ∈ l := by
  induction l with
  | nil => simp [sortedBy]
  | cons z rest ih =>
      simp only [sortedBy, mem_insertSorted, List.mem_cons, ih]

theorem foldl_preserve (P : σ → Prop) (f : σ → α → σ) (l : List α)
    (h : ∀ s a, a ∈ l → P s → P (f s a)) :
    ∀ s, P s → P (l.foldl f s) := by
  induction l with
  | nil => intro s hs; exact hs
  | cons x xs ih =>
      intro s hs
      exact ih (fun s a ha => h s a (List.mem_cons_of_mem _ ha)) _
        (h s x (List.mem_cons_self _ _) hs)

theorem Add_TotalTokens (t : UsageTotals) (u : TokenUsage) (c : ℚ) :
    (t.Add u c).TotalTokens = t.TotalTokens + u.sumTokens := by
  simp [UsageTotals.Add, UsageTotals.TotalTokens, TokenUsage.sumTokens]
  ring

theorem Add_CostUSD (t : UsageTotals) (u : TokenUsage) (c : ℚ) :
    (t.Add u c).CostUSD = t.CostUSD + c := rfl

theorem zero_TotalTokens : ({} : UsageTotals).TotalTokens = 0 := rfl

theorem captureCWD_accums (slug : String) (st : AggState) (rec : MessageRecord) :
    (captureCWD slug st rec).Grand = st.Grand ∧
    (captureCWD slug st rec).ModelSummaries = st.ModelSummaries ∧
    (captureCWD slug st rec).projectMap = st.projectMap ∧
    (captureCWD slug st rec).sessionMap = st.sessionMap ∧
    (captureCWD slug st rec).dailyMap = st.dailyMap := by
  unfold captureCWD
  split <;> simp

theorem C1_inv_applyRecord (fi : FileInfo) (st : AggState) (rec : MessageRecord)
    (h1 : pairSum (fun kv => kv.2.TotalTokens) st.ModelSummaries = st.Grand.TotalTokens)
    (h2 : pairSum (fun kv => kv.2.TotalTokens) st.dailyMap = st.Grand.TotalTokens) :
    pairSum (fun kv => kv.2.TotalTokens) (applyRecord fi st rec).ModelSummaries =
        (applyRecord fi st rec).Grand.TotalTokens ∧
    pairSum (fun kv => kv.2.TotalTokens) (applyRecord fi st rec).dailyMap =
        (applyRecord fi st rec).Grand.TotalTokens := by
  unfold applyRecord
  simp only
  constructor
  · rw [pairSum_upsert _ _ _ _ rec.Message.Usage.sumTokens
      (fun v => Add_TotalTokens v _ _) zero_TotalTokens _,
      Add_TotalTokens, h1]
  · rw [pairSum_upsert _ _ _ _ rec.Message.Usage.sumTokens
      (fun v => Add_TotalTokens v _ _) zero_TotalTokens _,
      Add_TotalTokens, h2]

theorem C1_inv_recordStep (opts : AggregateOptions) (now : Int) (fi : FileInfo)
    (st : AggState) (rec : MessageRecord)
    (h : pairSum (fun kv => kv.2.TotalTokens) st.ModelSummaries = st.Grand.TotalTokens ∧
         pairSum (fun kv => kv.2.TotalTokens) st.dailyMap = st.Grand.TotalTokens) :
    pairSum (fun kv => kv.2.TotalTokens) (recordStep opts now fi st rec).ModelSummaries =
        (recordStep opts now fi st rec).Grand.TotalTokens ∧
    pairSum (fun kv => kv.2.TotalTokens) (recordStep opts now fi st rec).dailyMap =
        (recordStep opts now fi st rec).Grand.TotalTokens := by
  obtain ⟨hg, hm, _, _, hd⟩ := captureCWD_accums fi.ProjectSlug st rec
  unfold recordStep recordTail
  split
  · rw [hg, hm, hd]; exact h
  · exact C1_inv_applyRecord fi _ rec (by rw [hg, hm]; exact h.1) (by rw [hg, hd]; exact h.2)

theorem C1_inv_processFile (opts : AggregateOptions) (now : Int) (fi : FileInfo)
    (st : AggState)
    (h : pairSum (fun kv => kv.2.TotalTokens) st.ModelSummaries = st.Grand.TotalTokens ∧
         pairSum (fun kv => kv.2.TotalTokens) st.dailyMap = st.Grand.TotalTokens) :
    pairSum (fun kv => kv.2.TotalTokens) (processFile opts now st fi).ModelSummaries =
        (processFile opts now st fi).Grand.TotalTokens ∧
    pairSum (fun kv => kv.2.TotalTokens) (processFile opts now st fi).dailyMap =
        (processFile opts now st fi).Grand.TotalTokens := by
  unfold processFile
  cases hrec : fi.records with
  | nil => exact h
  | cons r0 rest =>
      simp only
      obtain ⟨hg, hm, _, _, hd⟩ :=
        captureCWD_accums fi.ProjectSlug { st with ParseErrors := st.ParseErrors + fi.parseErrors } r0
      split
      · constructor
        · rw [hg, hm]; exact h.1
        · rw [hg, hd]; exact h.2
      · refine foldl_preserve
          (fun s => pairSum (fun kv => kv.2.TotalTokens) s.ModelSummaries = s.Grand.TotalTokens ∧
                    pairSum (fun kv => kv.2.TotalTokens) s.dailyMap = s.Grand.TotalTokens)
          _ _ (fun s a _ hs => C1_inv_recordStep opts now fi s a hs) _ ?_
        unfold recordTail
        split
        · constructor
          · rw [hg, hm]; exact h.1
          · rw [hg, hd]; exact h.2
        · exact C1_inv_applyRecord fi _ r0 (by rw [hg, hm]; exact h.1) (by rw [hg, hd]; exact h.2)

theorem C1_inv_state (files : List FileInfo) (opts : AggregateOptions) (now : Int) :
    pairSum (fun kv => kv.2.TotalTokens) (aggStateOf files opts now).ModelSummaries =
        (aggStateOf files opts now).Grand.TotalTokens ∧
    pairSum (fun kv => kv.2.TotalTokens) (aggStateOf files opts now).dailyMap =
        (aggStateOf files opts now).Grand.TotalTokens := by
  unfold aggStateOf
  exact foldl_preserve
    (fun s => pairSum (fun kv => kv.2.TotalTokens) s.ModelSummaries = s.Grand.TotalTokens ∧
              pairSum (fun kv => kv.2.TotalTokens) s.dailyMap = s.Grand.TotalTokens)
    _ _ (fun s a _ hs => C1_inv_processFile opts now a s hs) {} (by constructor <;> rfl)

theorem Aggregate_Grand (files : List FileInfo) (opts : AggregateOptions) (now : Int) :
    (Aggregate files opts now).Grand = (aggStateOf files opts now).Grand := rfl

theorem Aggregate_ModelSummaries (files : List FileInfo) (opts : AggregateOptions) (now : Int) :
    (Aggregate files opts now).ModelSummaries = (aggStateOf files opts now).ModelSummaries := rfl

/-- C1: for every input, the grand accumulator's TotalTokens equals the sum of
TotalTokens over the per-model buckets of the report's ModelSummaries, and
also equals the sum of TotalTokens over the per-day buckets each record was
folded into during the same pass. -/
theorem C1_grand_total_consistency (files : List FileInfo) (opts : AggregateOptions) (now : Int) :
    (Aggregate files opts now).Grand.TotalTokens =
        ((Aggregate files opts now).ModelSummaries.map (fun kv => kv.2.TotalTokens)).sum ∧
    (Aggregate files opts now).Grand.TotalTokens =
        ((aggStateOf files opts now).dailyMap.map (fun kv => kv.2.TotalTokens)).sum := by
  obtain ⟨h1, h2⟩ := C1_inv_state files opts now
  rw [Aggregate_Grand, Aggregate_ModelSummaries, ← pairSum_eq_sum_map, ← pairSum_eq_sum_map]
  exact ⟨h1.symm, h2.symm⟩

theorem sessApply_ProjectSlug (kind : FileKind) (model : String) (u : TokenUsage)
    (cost : ℚ) (ts : Int) (s : SessionSummary) :
    (sessApply kind model u cost ts s).ProjectSlug = s.ProjectSlug := by
  unfold sessApply
  dsimp only
  split_ifs <;> rfl

theorem sessApply_CombinedTokens (kind : FileKind) (model : String) (u : TokenUsage)
    (cost : ℚ) (ts : Int) (s : SessionSummary) :
    (sessApply kind model u cost ts s).CombinedTokens = s.CombinedTokens + u.sumTokens := by
  unfold sessApply SessionSummary.CombinedTokens
  dsimp only
  split_ifs <;> simp [Add_TotalTokens] <;> ring

theorem pairSumIf_false (p : α × β → Bool) (g : α × β → Int) (m : List (α × β))
    (h : ∀ kv ∈ m, p kv = false) : pairSumIf p g m = 0 := by
  induction m with
  | nil => rfl
  | cons kv rest ih =>
      simp only [pairSumIf, h kv (by simp)]
      simpa using ih (fun kv hkv => h kv (by simp [hkv]))

theorem pairSumIf_key_of_nodup [DecidableEq α] (g : α × β → Int) (m : List (α × β))
    (kv : α × β) (hn : (m.map Prod.fst).Nodup) (hkv : kv ∈ m) :
    pairSumIf (fun x => x.1 == kv.1) g m = g kv := by
  induction m with
  | nil => cases hkv
  | cons kv0 rest ih =>
      rw [List.map_cons, List.nodup_cons] at hn
      rcases List.mem_cons.mp hkv with h1 | h1
      · subst h1
        simp only [pairSumIf, beq_self_eq_true, if_pos]
        rw [pairSumIf_false (h := fun kv' hkv' => by
          have : kv'.1 ≠ kv.1 := by
            intro hh
            exact hn.1 (hh ▸ List.mem_map_of_mem Prod.fst hkv')
          simpa using this)]
        ring
      · have hne : (kv0.1 == kv.1) = false := by
          have : kv0.1 ≠ kv.1 := by
            intro hh
            exact hn.1 (by
              have := List.mem_map_of_mem Prod.fst h1
              rwa [← hh] at this)
          simpa using this
        simp only [pairSumIf, hne, if_neg]
        simpa using ih hn.2 h1

theorem C2Inv_applyRecord (σ : String → String) (fi : FileInfo) (st : AggState)
    (rec : MessageRecord) (hσ : σ rec.SessionID = fi.ProjectSlug)
    (h : C2Inv σ st) : C2Inv σ (applyRecord fi st rec) := by
  obtain ⟨hA, hC, hD⟩ := h
  refine ⟨?_, ?_, ?_⟩
  · show ∀ kv ∈ upsert rec.SessionID _ _ st.sessionMap, _
    refine mem_upsert_closure _ _ _ _ _ hA (fun v hv => ?_) ?_
    · rwa [sessApply_ProjectSlug]
    · rw [sessApply_ProjectSlug]
      exact hσ.symm
  · exact keys_upsert_nodup _ _ _ _ hC
  · intro P
    show pairSumIf _ _ (upsert fi.ProjectSlug
        (projApply rec.Message.Model rec.Message.Usage
          (ComputeCost rec.Message.Model rec.Message.Usage)) _ st.projectMap) =
      pairSumIf _ _ (upsert rec.SessionID _ _ st.sessionMap)
    rw [pairSumIf_upsert (fun kv => kv.1 == P)
          (fun kv => kv.2.Totals.TotalTokens) fi.ProjectSlug
          (projApply rec.Message.Model rec.Message.Usage
            (ComputeCost rec.Message.Model rec.Message.Usage))
          (freshProject fi.ProjectSlug)
          rec.Message.Usage.sumTokens (fi.ProjectSlug == P) st.projectMap
          (fun kv _ hk => by simp only [hk])
          (fun v => rfl)
          (fun v => Add_TotalTokens _ _ _)
          rfl rfl,
        pairSumIf_upsert (fun kv => kv.2.ProjectSlug == P)
          (fun kv => kv.2.CombinedTokens) rec.SessionID
          (sessApply fi.Kind rec.Message.Model rec.Message.Usage
            (ComputeCost rec.Message.Model rec.Message.Usage) rec.Timestamp)
          (freshSession rec.SessionID fi.ProjectSlug)
          rec.Message.Usage.sumTokens (fi.ProjectSlug == P) st.sessionMap
          (fun kv hkv hk => by simp only [hA kv hkv, hk, hσ])
          (fun v => by simp only [sessApply_ProjectSlug])
          (fun v => sessApply_CombinedTokens _ _ _ _ _ _)
          rfl rfl,
        hD P]

theorem C2Inv_processFile (σ : String → String) (opts : AggregateOptions) (now : Int)
    (fi : FileInfo) (st : AggState)
    (hσ : ∀ r ∈ fi.records, σ r.SessionID = fi.ProjectSlug)
    (h : C2Inv σ st) : C2Inv σ (processFile opts now st fi) := by
  have hcap : ∀ (slug : String) (s : AggState) (r : MessageRecord),
      C2Inv σ s → C2Inv σ (captureCWD slug s r) := by
    intro slug s r hs
    obtain ⟨_, _, hm2, hm3, _⟩ := captureCWD_accums slug s r
    unfold C2Inv at hs ⊢
    rw [hm2, hm3]
    obtain ⟨h1, h2, h3⟩ := hs
    exact ⟨h1, h2, h3⟩
  have htail : ∀ (s : AggState) (r : MessageRecord), r ∈ fi.records →
      C2Inv σ s → C2Inv σ (recordTail opts now fi s r) := by
    intro s r hr hs
    unfold recordTail
    split
    · exact hs
    · exact C2Inv_applyRecord σ fi s r (hσ r hr) hs
  have hstep : ∀ (s : AggState) (r : MessageRecord), r ∈ fi.records →
      C2Inv σ s → C2Inv σ (recordStep opts now fi s r) := by
    intro s r hr hs
    exact htail _ r hr (hcap _ s r hs)
  have hpe : C2Inv σ { st with ParseErrors := st.ParseErrors + fi.parseErrors } := by
    unfold C2Inv at h ⊢
    exact h
  unfold processFile
  cases hrec : fi.records with
  | nil => exact hpe
  | cons r0 rest =>
      simp only
      split
      · exact hcap _ _ r0 hpe
      · refine foldl_preserve (C2Inv σ) _ _
          (fun s a ha hs => hstep s a (by rw [hrec]; exact List.mem_cons_of_mem _ ha) hs) _
          (htail _ r0 (by rw [hrec]; exact List.mem_cons_self _ _) (hcap _ _ r0 hpe))

theorem C2Inv_state (files : List FileInfo) (opts : AggregateOptions) (now : Int)
    (σ : String → String)
    (hσ : ∀ fi ∈ files, ∀ r ∈ fi.records, σ r.SessionID = fi.ProjectSlug) :
    C2Inv σ (aggStateOf files opts now) := by
  unfold aggStateOf
  refine foldl_preserve (C2Inv σ) _ _
    (fun s a ha hs => C2Inv_processFile σ opts now a s (hσ a ha) hs) {} ?_
  refine ⟨by simp [AggState], by simp [AggState], fun P => rfl⟩

theorem enrichSessionEntry_ProjectSlug (st : AggState) (kv : String × SessionSummary) :
    (enrichSessionEntry st kv).ProjectSlug = kv.2.ProjectSlug := by
  unfold enrichSessionEntry
  split <;> rfl

theorem enrichSessionEntry_CombinedTokens (st : AggState) (kv : String × SessionSummary) :
    (enrichSessionEntry st kv).CombinedTokens = kv.2.CombinedTokens := by
  unfold enrichSessionEntry
  split <;> rfl

theorem enrichedSessions_filter_sum (st : AggState) (P : String) :
    (((enrichedSessions st).filter (fun s => s.ProjectSlug == P)).map
        (fun s => s.CombinedTokens)).sum =
      pairSumIf (fun kv => kv.2.ProjectSlug == P) (fun kv => kv.2.CombinedTokens)
        st.sessionMap := by
  unfold enrichedSessions
  induction st.sessionMap with
  | nil => rfl
  | cons kv rest ih =>
      simp only [List.map_cons, List.filter_cons, enrichSessionEntry_ProjectSlug, pairSumIf]
      by_cases hp : (kv.2.ProjectSlug == P) = true
      · simp [hp, enrichSessionEntry_CombinedTokens, ih]
      · rw [Bool.not_eq_true] at hp
        simp [hp, ih]

theorem enrichProjectEntry_fst (st : AggState) (kv : String × ProjectSummary) :
    (enrichProjectEntry st kv).1 = kv.1 := rfl

theorem enrichProjectEntry_Totals (st : AggState) (kv : String × ProjectSummary) :
    (enrichProjectEntry st kv).2.Totals = kv.2.Totals := rfl

theorem attachProjectEntry_Totals (st : AggState) (pkv : String × ProjectSummary) :
    (attachProjectEntry st pkv).Totals = pkv.2.Totals := rfl

theorem attachProjectEntry_Sessions (st : AggState) (pkv : String × ProjectSummary) :
    (attachProjectEntry st pkv).Sessions =
      (enrichedSessions st).filter (fun s => s.ProjectSlug == pkv.1) := rfl

/-- C2 (counterexample): on an input consisting of a single subagent file with
non-zero usage, the aggregated report has a project whose Totals.TotalTokens
(5) differs from the sum of its attached sessions' main-conversation
Totals.TotalTokens (0, the usage having gone to SubagentTotals) — the claim's
equation, checked over every project of the report, is false. -/
theorem C2_counterexample :
    ((Aggregate
        [{ Kind := FileKind.KindSubagent, ProjectSlug := "p", SessionID := "s",
           records := [{ Type' := "assistant", SessionID := "s", Timestamp := 1000,
                         Message := { Model := "m", Usage := { InputTokens := 5 } } }] }]
        {} 0).Projects.all
      (fun p => p.Totals.TotalTokens ==
        (p.Sessions.map (fun s => s.Totals.TotalTokens)).sum)) = false := by
  decide

/-- C2 (amended): whenever every record of the input carries a session id that
is used under a single project slug (as the discovery layout guarantees),
each project's Totals.TotalTokens equals the sum of the combined — main
conversation plus subagent — token totals of the sessions attached to it;
subagent usage is included because the aggregate loop folds subagent-file
records into the project bucket as well. -/
theorem C2_project_totals_combined (files : List FileInfo) (opts : AggregateOptions)
    (now : Int) (σ : String → String)
    (hσ : ∀ fi ∈ files, ∀ r ∈ fi.records, σ r.SessionID = fi.ProjectSlug) :
    ∀ p ∈ (Aggregate files opts now).Projects,
      p.Totals.TotalTokens = (p.Sessions.map (fun s => s.CombinedTokens)).sum := by
  intro p hp
  obtain ⟨hA, hC, hD⟩ := C2Inv_state files opts now σ hσ
  have hp' : p ∈ attachedProjects (aggStateOf files opts now) :=
    (mem_sortedBy _ _ _).mp hp
  obtain ⟨pkv, hpkv, hpe⟩ := List.mem_map.mp hp'
  obtain ⟨kv, hkv, hke⟩ := List.mem_map.mp hpkv
  have hTot : p.Totals = kv.2.Totals := by
    rw [← hpe, attachProjectEntry_Totals, ← hke, enrichProjectEntry_Totals]
  have hSess : p.Sessions =
      (enrichedSessions (aggStateOf files opts now)).filter
        (fun s => s.ProjectSlug == kv.1) := by
    rw [← hpe, attachProjectEntry_Sessions, ← hke, enrichProjectEntry_fst]
  rw [hTot, hSess, enrichedSessions_filter_sum, ← hD kv.1,
    pairSumIf_key_of_nodup _ _ kv hC hkv]

theorem headD_mem (l : List α) (d : α) (h : l ≠ []) : l.headD d ∈ l := by
  cases l with
  | nil => exact absurd rfl h
  | cons x xs => simp

/-- C2 witness: the amended equation holds on a concrete two-file input (one
session file and one subagent file of the same project). -/
theorem C2_project_totals_combined_witness :
    ((Aggregate c2witnessFiles {} 0).Projects.headD {}).Totals.TotalTokens =
      ((((Aggregate c2witnessFiles {} 0).Projects.headD {}).Sessions.map
          (fun s => s.CombinedTokens)).sum) := by
  have h := C2_project_totals_combined c2witnessFiles {} 0 (fun _ => "p") (by decide)
  exact h _ (headD_mem _ _ (by decide))

/-- C3: the correction detector follows the exact priority scope, then
format, then intent-signal, then lone-walk-back-defaults-to-intent, else no
correction — each outcome characterised by which phrase sets occur in the
lower-cased 200-unit preview — and the session accumulator never classifies
the session's first user message, while every later non-empty user text is
classified by exactly this detector. -/
theorem C3_correction_priority (text : String) (st : SessState) :
    (detectCorrectionType text = some "scope" ↔
      (containsAnyL (previewOf text) walkbackSignals = true ∧
       containsAnyL (previewOf text) scopePhrases = true)) ∧
    (detectCorrectionType text = some "format" ↔
      (containsAnyL (previewOf text) walkbackSignals = true ∧
       containsAnyL (previewOf text) formatPhrases = true ∧
       containsAnyL (previewOf text) scopePhrases = false)) ∧
    (detectCorrectionType text = some "intent" ↔
      ((containsAnyL (previewOf text) intentSignals = true ∨
        containsAnyL (previewOf text) walkbackSignals = true) ∧
       ¬(containsAnyL (previewOf text) walkbackSignals = true ∧
         containsAnyL (previewOf text) scopePhrases = true) ∧
       ¬(containsAnyL (previewOf text) walkbackSignals = true ∧
         containsAnyL (previewOf text) formatPhrases = true))) ∧
    (detectCorrectionType text = none ↔
      (containsAnyL (previewOf text) walkbackSignals = false ∧
       containsAnyL (previewOf text) intentSignals = false)) ∧
    (st.userMessages = [] →
      (sessUserStep st text).correctionCount = st.correctionCount ∧
      (sessUserStep st text).correctionCounts = st.correctionCounts) ∧
    (st.userMessages ≠ [] → text ≠ "" →
      (sessUserStep st text).correctionCount =
        st.correctionCount + (if (detectCorrectionType text).isSome then 1 else 0)) := by
  refine ⟨?_, ?_, ?_, ?_, ?_, ?_⟩
  · cases hwb : containsAnyL (previewOf text) walkbackSignals <;>
      cases hsc : containsAnyL (previewOf text) scopePhrases <;>
      cases hfm : containsAnyL (previewOf text) formatPhrases <;>
      cases hin : containsAnyL (previewOf text) intentSignals <;>
      simp [detectCorrectionType, hwb, hsc, hfm, hin]
  · cases hwb : containsAnyL (previewOf text) walkbackSignals <;>
      cases hsc : containsAnyL (previewOf text) scopePhrases <;>
      cases hfm : containsAnyL (previewOf text) formatPhrases <;>
      cases hin : containsAnyL (previewOf text) intentSignals <;>
      simp [detectCorrectionType, hwb, hsc, hfm, hin]
  · cases hwb : containsAnyL (previewOf text) walkbackSignals <;>
      cases hsc : containsAnyL (previewOf text) scopePhrases <;>
      cases hfm : containsAnyL (previewOf text) formatPhrases <;>
      cases hin : containsAnyL (previewOf text) intentSignals <;>
      simp [detectCorrectionType, hwb, hsc, hfm, hin]
  · cases hwb : containsAnyL (previewOf text) walkbackSignals <;>
      cases hsc : containsAnyL (previewOf text) scopePhrases <;>
      cases hfm : containsAnyL (previewOf text) formatPhrases <;>
      cases hin : containsAnyL (previewOf text) intentSignals <;>
      simp [detectCorrectionType, hwb, hsc, hfm, hin]
  · intro h
    unfold sessUserStep
    split
    · rw [if_neg (by simp [h])]
      constructor <;> rfl
    · exact ⟨rfl, rfl⟩
  · intro h ht
    have hlen : st.userMessages.length ≥ 1 := List.length_pos.mpr h
    unfold sessUserStep
    rw [if_pos ht, if_pos hlen]
    cases hdet : detectCorrectionType text <;> simp [hdet]

/-- C3 witness: a concrete walk-back-plus-scope message is classified as
"scope", and a first user message is never counted as a correction. -/
theorem C3_correction_priority_witness :
    detectCorrectionType "no, don\x27t change the other file" = some "scope" ∧
    (sessUserStep { userMessages := [] } "no, don\x27t change the other file").correctionCount =
      ({ userMessages := [] } : SessState).correctionCount :=
  ⟨((C3_correction_priority "no, don\x27t change the other file" {}).1).mpr (by decide),
   ((C3_correction_priority "no, don\x27t change the other file"
      { userMessages := [] }).2.2.2.2.1 rfl).1⟩

/-- C4: every qualifying session's clarity score is exactly
100 · (0.40 · frontLoadRatio + 0.35 · (1 − correctionRate) + 0.25 · (1 −
clarificationRate)), and in particular front-load 0.8 with zero correction
and clarification rates scores exactly 92 (float64 modelled as exact
rationals). -/
theorem C4_score_formula :
    (∀ (st : SessState) (m : SessMetrics), sessionMetricsOf st = some m →
      m.score = 100 * (0.40 * m.frontLoad + 0.35 * (1 - m.corrRate) +
        0.25 * (1 - m.clarRate))) ∧
    (∀ (st : SessState) (m : SessMetrics), sessionMetricsOf st = some m →
      m.frontLoad = 0.8 → m.corrRate = 0 → m.clarRate = 0 → m.score = 92) := by
  have h1 : ∀ (st : SessState) (m : SessMetrics), sessionMetricsOf st = some m →
      m.score = 100 * (0.40 * m.frontLoad + 0.35 * (1 - m.corrRate) +
        0.25 * (1 - m.clarRate)) := by
    intro st m hm
    unfold sessionMetricsOf at hm
    dsimp only at hm
    by_cases h0 : st.userMessages.length = 0
    · rw [if_pos h0] at hm
      exact absurd hm (by simp)
    · rw [if_neg h0] at hm
      injection hm with hm
      subst hm
      rfl
  refine ⟨h1, fun st m hm hfl hcr hcl => ?_⟩
  rw [h1 st m hm, hfl, hcr, hcl]
  norm_num

/-- C4 witness: the session with user texts of byte lengths 8 and 2, no
corrections and no clarification derives front-load 4/5 = 0.8, rates 0, and
score exactly 92. -/
theorem C4_score_formula_witness :
    sessionMetricsOf { userMessages := ["aaaaaaaa", "aa"] } =
      some { corrRate := 0, clarRate := 0, frontLoad := 4/5, score := 92,
             startTime := 0, correctionsByType := [] } ∧
    (4 / 5 : ℚ) = 0.8 ∧
    ({ corrRate := 0, clarRate := 0, frontLoad := 4/5, score := 92,
       startTime := 0, correctionsByType := [] } : SessMetrics).score = 92 := by
  have e8 : (("aaaaaaaa" : String).utf8ByteSize : Int) = 8 := rfl
  have e2 : (("aa" : String).utf8ByteSize : Int) = 2 := rfl
  have hsome : sessionMetricsOf { userMessages := ["aaaaaaaa", "aa"] } =
      some { corrRate := 0, clarRate := 0, frontLoad := 4/5, score := 92,
             startTime := 0, correctionsByType := [] } := by
    unfold sessionMetricsOf
    simp only [List.length_cons, List.length_nil, List.map_cons, List.map_nil,
      List.sum_cons, List.sum_nil, List.headD_cons, e8, e2]
    norm_num
  exact ⟨hsome, by norm_num,
    C4_score_formula.2 _ _ hsome (by norm_num) rfl rfl⟩

theorem downRange_eq (n : Nat) :
    downRange n = (List.range n).map (fun j => n - 1 - j) := by
  induction n with
  | zero => rfl
  | succ k ih =>
      rw [downRange, List.range_succ_eq_map, List.map_cons, List.map_map, ih]
      refine congrArg₂ _ (by omega) (List.map_congr_left fun j hj => ?_)
      show k - 1 - j = k + 1 - 1 - (j + 1)
      omega

/-- C5: with a positive day window, the daily slice is exactly one entry per
consecutive day from today − (N − 1) through today, in ascending order,
zero-filled from the per-day map wherever a day has no data — for every
per-day map. -/
theorem C5_day_window (dailyMap : List (Int × UsageTotals)) (days : Int) (today : Int)
    (h : 0 < days) :
    buildDailySlice dailyMap days today =
      (List.range days.toNat).map
        (fun j => { Date := today - (days - 1) + j,
                    Totals := lookupD dailyMap (today - (days - 1) + j) {} }) := by
  unfold buildDailySlice
  rw [if_pos h, downRange_eq, List.map_map]
  refine List.map_congr_left fun j hj => ?_
  have hj' : j < days.toNat := List.mem_range.mp hj
  have hd : today - ((days.toNat - 1 - j : Nat) : Int) = today - (days - 1) + j := by
    omega
  show ({ Date := today - ((days.toNat - 1 - j : Nat) : Int),
          Totals := lookupD dailyMap (today - ((days.toNat - 1 - j : Nat) : Int)) {} } :
        DailySummary) = _
  rw [hd]

/-- C5 witness: a three-day window over a sparse map yields exactly the three
trailing days in order with the mapped day filled and the others zero. -/
theorem C5_day_window_witness :
    (0 : Int) < 3 ∧
    buildDailySlice [(99, { InputTokens := 7 })] 3 100 =
      (List.range (3 : Int).toNat).map
        (fun j => { Date := 100 - ((3 : Int) - 1) + j,
                    Totals := lookupD [(99, { InputTokens := 7 })]
                      (100 - ((3 : Int) - 1) + j) {} }) :=
  ⟨by decide, C5_day_window [(99, { InputTokens := 7 })] 3 100 (by decide)⟩

/-- C6: with fewer than two qualifying sessions (sessions with at least one
extracted user message), ComputeClarity returns the explicit
insufficient-data report that carries only the session count — zero overall
metrics, no weekly buckets, no hourly buckets, no tips, no score delta — and
this is an ordinary return value, not an error. -/
theorem C6_insufficient_data (files : List FileInfo) (cutoff : Int)
    (localHour : Int → Nat) (rng : Nat → Nat)
    (h : qualifyingSessionCount files cutoff < 2) :
    ComputeClarity files cutoff localHour rng =
      { SessionCount := qualifyingSessionCount files cutoff } := by
  unfold qualifyingSessionCount at h
  unfold ComputeClarity
  rw [if_pos h]
  unfold qualifyingSessionCount
  rfl

/-- C6 witness: one qualifying session yields the bare session-count report. -/
theorem C6_insufficient_data_witness :
    qualifyingSessionCount c6witnessFiles 0 = 1 ∧
    ComputeClarity c6witnessFiles 0 (fun _ => 0) (fun _ => 0) =
      { SessionCount := qualifyingSessionCount c6witnessFiles 0 } :=
  ⟨by decide, C6_insufficient_data _ _ _ _ (by decide)⟩

theorem getD_mem (l : List α) (i : Nat) (d : α) (h : i < l.length) : l.getD i d ∈ l := by
  induction l generalizing i with
  | nil => simp at h
  | cons x xs ih =>
      cases i with
      | zero => simp [List.getD_cons_zero]
      | succ k =>
          rw [List.getD_cons_succ]
          exact List.mem_cons_of_mem _ (ih k (by simpa using h))

theorem CorrectionRateInsight_Level (x : ℚ) :
    (CorrectionRateInsight x).Level = "good" ∨ (CorrectionRateInsight x).Level = "ok" ∨
      (CorrectionRateInsight x).Level = "warn" := by
  unfold CorrectionRateInsight
  split_ifs <;> simp

theorem ClarificationRateInsight_Level (x : ℚ) :
    (ClarificationRateInsight x).Level = "good" ∨ (ClarificationRateInsight x).Level = "ok" ∨
      (ClarificationRateInsight x).Level = "warn" := by
  unfold ClarificationRateInsight
  split_ifs <;> simp

theorem FrontLoadRatioInsight_Level (x : ℚ) :
    (FrontLoadRatioInsight x).Level = "good" ∨ (FrontLoadRatioInsight x).Level = "ok" ∨
      (FrontLoadRatioInsight x).Level = "warn" := by
  unfold FrontLoadRatioInsight
  split_ifs <;> simp

theorem getD_mod_metric (l : List CoachingTip) (k : Nat) (d : CoachingTip) (mv : String)
    (hl : ∀ x ∈ l, x.Metric = mv) (h0 : 0 < l.length) :
    (l.getD (k % l.length) d).Metric = mv :=
  hl _ (getD_mem _ _ _ (Nat.mod_lt _ h0))

theorem getElemD_mod_metric (l : List CoachingTip) (k : Nat) (d : CoachingTip) (mv : String)
    (hl : ∀ x ∈ l, x.Metric = mv) (h0 : 0 < l.length) :
    ((l[k % l.length]?).getD d).Metric = mv := by
  have h : k % l.length < l.length := Nat.mod_lt _ h0
  rw [List.getElem?_eq_getElem h]
  exact hl _ (List.getElem_mem _)

theorem tipBank_metric_corr (key : String)
    (hkey : key = "correction_rate_ok" ∨ key = "correction_rate_warn" ∨
            key = "correction_scope_ok" ∨ key = "correction_scope_warn" ∨
            key = "correction_format_ok" ∨ key = "correction_format_warn" ∨
            key = "correction_intent_ok" ∨ key = "correction_intent_warn") :
    ∀ x ∈ lookupD tipBank key [], x.Metric = "correction_rate" := by
  rcases hkey with h | h | h | h | h | h | h | h <;> subst h <;> decide

theorem selectTipsFor_mem (rng : Nat → Nat) (o : ClarityMetrics) (wm lvl : String)
    (hwm : wm = "correction_rate" ∨ wm = "clarification_rate" ∨ wm = "front_load_ratio")
    (hlvl : lvl = "good" ∨ lvl = "ok" ∨ lvl = "warn")
    (tip : CoachingTip) (htip : tip ∈ selectTipsFor rng o wm lvl) :
    lvl ≠ "good" ∧ tip.Metric = wm := by
  rcases hlvl with hlvl | hlvl
  · rw [selectTipsFor, if_pos hlvl] at htip
    simp at htip
  · have hne : lvl ≠ "good" := by
      rcases hlvl with h | h <;> rw [h] <;> simp
    refine ⟨hne, ?_⟩
    rw [selectTipsFor, if_neg hne] at htip
    by_cases hcond : wm = "correction_rate" ∧ o.CorrectionsByType.length > 0
    · rw [if_pos hcond] at htip
      by_cases hlen :
          (["scope", "format", "intent"].filterMap
            (fun ctype =>
              if lookupD o.CorrectionsByType ctype 0 = 0 then none
              else
                let bucket := lookupD tipBank ("correction_" ++ ctype ++ "_" ++ lvl) []
                if bucket.length > 0 then
                  some (bucket.getD (rng bucket.length % bucket.length) {})
                else none)).length > 0
      · rw [if_pos hlen] at htip
        obtain ⟨ctype, hct, hsome⟩ := List.mem_filterMap.mp htip
        dsimp only at hsome
        by_cases hz : lookupD o.CorrectionsByType ctype 0 = 0
        · rw [if_pos hz] at hsome; cases hsome
        · rw [if_neg hz] at hsome
          by_cases hb : (lookupD tipBank ("correction_" ++ ctype ++ "_" ++ lvl) []).length > 0
          · rw [if_pos hb] at hsome
            injection hsome with hsome
            rw [hcond.1, ← hsome]
            have hct' : ctype = "scope" ∨ ctype = "format" ∨ ctype = "intent" := by
              simpa using hct
            rcases hct' with h | h | h <;> rcases hlvl with h2 | h2 <;> subst h <;> subst h2 <;>
              exact getD_mod_metric _ _ _ _ (tipBank_metric_corr _ (by decide)) hb
          · rw [if_neg hb] at hsome; cases hsome
      · rw [if_neg hlen] at htip
        rw [hcond.1] at htip ⊢
        rcases hlvl with h2 | h2 <;> subst h2 <;>
          simp only [lookupD, tipBank] at htip <;>
          simp at htip <;> rw [htip] <;>
          exact getElemD_mod_metric _ _ _ _ (by decide) (by decide)
    · rw [if_neg hcond] at htip
      rw [if_neg (by simp)] at htip
      rcases hwm with h | h | h <;> subst h <;> rcases hlvl with h2 | h2 <;> subst h2 <;>
        simp only [lookupD, tipBank] at htip <;>
        simp at htip <;> rw [htip] <;>
        exact getElemD_mod_metric _ _ _ _ (by decide) (by decide)

theorem worstMetricOf_cases (o : ClarityMetrics) :
    worstMetricOf o = ("correction_rate", (CorrectionRateInsight o.CorrectionRate).Level) ∨
    worstMetricOf o = ("clarification_rate", (ClarificationRateInsight o.ClarificationRate).Level) ∨
    worstMetricOf o = ("front_load_ratio", (FrontLoadRatioInsight o.FrontLoadRatio).Level) := by
  unfold worstMetricOf
  dsimp only
  split_ifs <;> simp

/-- C7: when all three overall metrics are at good level (correction rate
below 0.10, clarification rate below 0.15, front-load ratio above 0.60) the
coaching tip selector returns no tip; and for any overall metrics, every
returned tip targets a metric whose insight level is not good — a metric
already at good level is never served as the weakest metric. -/
theorem C7_tip_selector_respects_good (rng : Nat → Nat) (r : ClarityReport) :
    (r.Overall.CorrectionRate < 0.10 → r.Overall.ClarificationRate < 0.15 →
      0.60 < r.Overall.FrontLoadRatio → SelectCoachingTips rng r = []) ∧
    (∀ tip ∈ SelectCoachingTips rng r, metricLevel tip.Metric r.Overall ≠ "good") := by
  constructor
  · intro h1 h2 h3
    have g1 : (CorrectionRateInsight r.Overall.CorrectionRate).Level = "good" := by
      unfold CorrectionRateInsight
      rw [if_pos h1]
    have g2 : (ClarificationRateInsight r.Overall.ClarificationRate).Level = "good" := by
      unfold ClarificationRateInsight
      rw [if_pos h2]
    have g3 : (FrontLoadRatioInsight r.Overall.FrontLoadRatio).Level = "good" := by
      unfold FrontLoadRatioInsight
      rw [if_pos h3]
    unfold SelectCoachingTips
    split
    · rfl
    · rw [if_pos ⟨g1, g2, g3⟩]
  · intro tip htip
    unfold SelectCoachingTips at htip
    split at htip
    · simp at htip
    · by_cases hall : (CorrectionRateInsight r.Overall.CorrectionRate).Level = "good" ∧
          (ClarificationRateInsight r.Overall.ClarificationRate).Level = "good" ∧
          (FrontLoadRatioInsight r.Overall.FrontLoadRatio).Level = "good"
      · rw [if_pos hall] at htip
        simp at htip
      · rw [if_neg hall] at htip
        rcases worstMetricOf_cases r.Overall with hw | hw | hw <;> rw [hw] at htip
        · have h := selectTipsFor_mem rng r.Overall _ _ (Or.inl rfl)
            (CorrectionRateInsight_Level r.Overall.CorrectionRate) tip htip
          rw [h.2]
          unfold metricLevel
          rw [if_pos rfl]
          exact h.1
        · have h := selectTipsFor_mem rng r.Overall _ _ (Or.inr (Or.inl rfl))
            (ClarificationRateInsight_Level r.Overall.ClarificationRate) tip htip
          rw [h.2]
          unfold metricLevel
          rw [if_neg (by decide), if_pos rfl]
          exact h.1
        · have h := selectTipsFor_mem rng r.Overall _ _ (Or.inr (Or.inr rfl))
            (FrontLoadRatioInsight_Level r.Overall.FrontLoadRatio) tip htip
          rw [h.2]
          unfold metricLevel
          rw [if_neg (by decide), if_neg (by decide)]
          exact h.1

theorem c7bad_level_warn :
    (CorrectionRateInsight c7badReport.Overall.CorrectionRate).Level = "warn" := by
  unfold CorrectionRateInsight c7badReport
  norm_num

theorem c7bad_worst :
    worstMetricOf c7badReport.Overall = ("correction_rate", "warn") := by
  have h := c7bad_level_warn
  unfold worstMetricOf
  dsimp only
  rw [if_pos ?_]
  · rw [h]
  · constructor <;> · unfold c7badReport; dsimp only; norm_num

set_option maxRecDepth 4000 in
theorem c7bad_tips :
    SelectCoachingTips (fun _ => 0) c7badReport =
      [(lookupD tipBank "correction_rate_warn" []).getD 0 {}] := by
  have hw := c7bad_level_warn
  unfold SelectCoachingTips
  rw [if_neg (by norm_num [c7badReport])]
  rw [if_neg (by rw [hw]; simp)]
  rw [c7bad_worst]
  decide

/-- C7 witness: on an all-good report the selector returns nothing, and the
tip returned for a high correction rate targets the correction metric, whose
level is warn, not good. -/
theorem C7_tip_selector_respects_good_witness :
    SelectCoachingTips (fun _ => 0) c7goodReport = [] ∧
    metricLevel ((lookupD tipBank "correction_rate_warn" []).getD 0 {}).Metric
      c7badReport.Overall ≠ "good" :=
  ⟨(C7_tip_selector_respects_good (fun _ => 0) c7goodReport).1
      (by norm_num [c7goodReport]) (by norm_num [c7goodReport]) (by norm_num [c7goodReport]),
   (C7_tip_selector_respects_good (fun _ => 0) c7badReport).2 _
      (by rw [c7bad_tips]; simp)⟩

theorem countEq_append [DecidableEq α] (x : α) (l l' : List α) :
    countEq x (l ++ l') = countEq x l + countEq x l' := by
  induction l with
  | nil => simp [countEq]
  | cons y rest ih => simp [countEq, ih]; ring

theorem countEq_single_ne [DecidableEq α] (x y : α) (h : y ≠ x) : countEq x [y] = 0 := by
  simp [countEq, h]

theorem LookupPricing_not_found (model : String)
    (h : ∀ p ∈ pricingTable, isPrefixChars p.Family.data model.data = false) :
    LookupPricing model = ({}, false) := by
  unfold LookupPricing
  have hfold : ∀ (l : List ModelPricing),
      (∀ p ∈ l, isPrefixChars p.Family.data model.data = false) →
      ∀ acc : ModelPricing × Int,
        l.foldl
          (fun (acc : ModelPricing × Int) p =>
            if isPrefixChars p.Family.data model.data ∧ (p.Family.length : Int) > acc.2 then
              (p, (p.Family.length : Int))
            else acc)
          acc = acc := by
    intro l hl
    induction l with
    | nil => intro acc; rfl
    | cons p rest ih =>
        intro acc
        rw [List.foldl_cons,
          if_neg (fun hc => by
            have := hl p (by simp)
            rw [this] at hc
            exact absurd hc.1 (by simp))]
        exact ih (fun q hq => hl q (by simp [hq])) acc
  rw [hfold pricingTable h ({}, -1)]
  rfl

theorem ComputeCost_unknown (model : String)
    (h : ∀ p ∈ pricingTable, isPrefixChars p.Family.data model.data = false)
    (u : TokenUsage) : ComputeCost model u = 0 := by
  unfold ComputeCost
  rw [LookupPricing_not_found model h]
  rfl

theorem natDigits_head_digit (n : Nat) :
    ∃ c t, natDigits n = c :: t ∧
      c ∈ ['0', '1', '2', '3', '4', '5', '6', '7', '8', '9'] := by
  induction n using Nat.strong_induction_on with
  | _ n ih =>
      rw [natDigits]
      split
      · next h =>
          refine ⟨Char.ofNat (48 + n), [], rfl, ?_⟩
          interval_cases n <;> decide
      · next h =>
          obtain ⟨c, t, hct, hc⟩ := ih (n / 10) (Nat.div_lt_self (by omega) (by omega))
          exact ⟨c, t ++ [Char.ofNat (48 + n % 10)], by rw [hct]; rfl, hc⟩

theorem insight_ne_unrec (i : Insight) (model : String) (c : Char)
    (hc : i.Message.data.head? = some c) (hne : c ≠ 'M') :
    i ≠ unrecognizedModelInsight model := by
  intro he
  rw [he] at hc
  rw [show (unrecognizedModelInsight model).Message.data.head? = some 'M' from rfl] at hc
  injection hc with hc
  exact hne hc.symm

theorem unrecognizedModelInsight_inj (a b : String)
    (h : unrecognizedModelInsight a = unrecognizedModelInsight b) : a = b := by
  have hm : "Model \x22" ++ a ++ "\x22 is not in the pricing table — its cost is shown as $0.00. Add it to pricing.go." =
      "Model \x22" ++ b ++ "\x22 is not in the pricing table — its cost is shown as $0.00. Add it to pricing.go." :=
    congrArg Insight.Message h
  have hd := congrArg String.data hm
  simp only [String.data_append, List.append_assoc] at hd
  have hd2 := List.append_cancel_left hd
  have hd3 := List.append_cancel_right hd2
  cases a with
  | mk da =>
      cases b with
      | mk db => exact congrArg String.mk hd3

theorem countEq_unrec_filterMap (model : String)
    (hnf : (LookupPricing model).2 = false)
    (m : List (String × UsageTotals)) (hnd : (m.map Prod.fst).Nodup) :
    countEq (unrecognizedModelInsight model)
      (m.filterMap
        (fun kv => if (LookupPricing kv.1).2 then none
                   else some (unrecognizedModelInsight kv.1))) =
      if model ∈ m.map Prod.fst then 1 else 0 := by
  induction m with
  | nil => simp [countEq]
  | cons kv rest ih =>
      rw [List.map_cons, List.nodup_cons] at hnd
      rw [List.filterMap_cons, List.map_cons]
      by_cases hk : (LookupPricing kv.1).2 = true
      · rw [if_pos hk, ih hnd.2]
        by_cases hr : model ∈ rest.map Prod.fst
        · rw [if_pos hr, if_pos (List.mem_cons_of_mem _ hr)]
        · have hmk : ¬ model = kv.1 := by
            intro h
            rw [h] at hnf
            rw [hnf] at hk
            cases hk
          rw [if_neg hr, if_neg (fun hmem => by
            rcases List.mem_cons.mp hmem with h1 | h2
            · exact hmk h1
            · exact hr h2)]
      · rw [if_neg hk]
        simp only [countEq]
        rw [ih hnd.2]
        by_cases hmk : kv.1 = model
        · have hnr : model ∉ rest.map Prod.fst := by rw [← hmk]; exact hnd.1
          rw [if_pos (by rw [hmk]), if_neg hnr,
            if_pos (by rw [hmk]; exact List.mem_cons_self _ _)]
        · rw [if_neg (fun he => hmk (unrecognizedModelInsight_inj kv.1 model he))]
          by_cases hr : model ∈ rest.map Prod.fst
          · rw [if_pos hr, if_pos (List.mem_cons_of_mem _ hr)]
          · rw [if_neg hr, if_neg (fun hmem => by
              rcases List.mem_cons.mp hmem with h1 | h2
              · exact hmk h1.symm
              · exact hr h2)]

theorem modelKeys_nodup (files : List FileInfo) (opts : AggregateOptions) (now : Int) :
    (((aggStateOf files opts now).ModelSummaries.map Prod.fst)).Nodup := by
  unfold aggStateOf
  refine foldl_preserve (fun (st : AggState) => ((st.ModelSummaries.map Prod.fst)).Nodup)
    _ _ (fun st fi _ hst => ?_) {} (by simp)
  unfold processFile
  cases hrec : fi.records with
  | nil => exact hst
  | cons r0 rest =>
      simp only
      have hstep : ∀ (s : AggState) (r : MessageRecord),
          ((s.ModelSummaries.map Prod.fst)).Nodup →
          (((recordStep opts now fi s r).ModelSummaries.map Prod.fst)).Nodup := by
        intro s r hs
        obtain ⟨_, hm, _, _, _⟩ := captureCWD_accums fi.ProjectSlug s r
        unfold recordStep recordTail
        split
        · rwa [hm]
        · unfold applyRecord
          simp only
          rw [hm]
          exact keys_upsert_nodup _ _ _ _ hs
      have htail : ∀ (s : AggState) (r : MessageRecord),
          ((s.ModelSummaries.map Prod.fst)).Nodup →
          (((recordTail opts now fi s r).ModelSummaries.map Prod.fst)).Nodup := by
        intro s r hs
        unfold recordTail
        split
        · exact hs
        · unfold applyRecord
          simp only
          exact keys_upsert_nodup _ _ _ _ hs
      obtain ⟨_, hm, _, _, _⟩ :=
        captureCWD_accums fi.ProjectSlug { st with ParseErrors := st.ParseErrors + fi.parseErrors } r0
      split
      · rwa [hm]
      · exact foldl_preserve _ _ _ (fun s a _ hs => hstep s a hs) _
          (htail _ r0 (by rwa [hm]))

theorem data_head_append_left (a b : String) (c : Char)
    (h : a.data.head? = some c) : (a ++ b).data.head? = some c := by
  rw [String.data_append]
  cases hd : a.data with
  | nil => rw [hd] at h; cases h
  | cons x t =>
      rw [hd] at h
      injection h with h
      rw [List.cons_append, h]
      rfl

theorem insight_ne_unrec2 (i : Insight) (model : String)
    (hc : i.Message.data.head? ≠ some 'M') : i ≠ unrecognizedModelInsight model := by
  intro he
  exact hc (by rw [he]; rfl)

theorem countEq_unrec_part1 (model : String) (e : ℚ) (T : Int) :
    countEq (unrecognizedModelInsight model)
      (if e ≥ 0.75 then
        [{ Severity := "good",
           Message := "Cache efficiency is excellent at " ++ fmtQ1 (e * 100) ++ "% — your long sessions and CLAUDE.md are working well." }]
      else if e ≥ 0.40 then
        [{ Severity := "info",
           Message := "Cache efficiency is moderate at " ++ fmtQ1 (e * 100) ++ "%. Consider longer sessions and adding a CLAUDE.md to pre-establish context." }]
      else if T > 0 then
        [{ Severity := "warn",
           Message := "Cache efficiency is low at " ++ fmtQ1 (e * 100) ++ "%. Try longer sessions, avoid frequent restarts, and use CLAUDE.md to establish persistent context." }]
      else []) = 0 := by
  split_ifs <;> rfl

theorem countEq_unrec_part2 (model : String) (q : ℚ) (T : Int) :
    countEq (unrecognizedModelInsight model)
      (if T > 0 then
        if q > 0.30 then
          [{ Severity := "warn",
             Message := "Output tokens are " ++ fmtQ0 (q * 100) ++ "% of total tokens — responses may be very verbose. Consider adding \x27be concise\x27 instructions to CLAUDE.md." }]
        else []
      else []) = 0 := by
  split_ifs <;> rfl

theorem countEq_unrec_part3 (model : String) (s T : Int) :
    countEq (unrecognizedModelInsight model)
      (if s > 0 ∧ T > 0 then
        [{ Severity := "info",
           Message := "Subagents consumed " ++ fmtQ0 ((s : ℚ) / (T : ℚ) * 100) ++ "% of total tokens (" ++ fmtTokensInt s ++ " tokens). Each subagent spawns a fresh context window; cache reads in the main session keep the rest cheap." }]
      else []) = 0 := by
  split_ifs <;> rfl

theorem countEq_unrec_part4 (model : String) (p : Int) :
    countEq (unrecognizedModelInsight model)
      (if p ≥ 0 then
        [{ Severity := "info",
           Message := "Your peak usage hour is " ++ fmtPad2 p ++ ":00–" ++ fmtPad2 (p + 1) ++ ":00 local time." }]
      else []) = 0 := by
  split_ifs <;> rfl

theorem countEq_unrec_part6 (model : String) (n : Nat) :
    countEq (unrecognizedModelInsight model)
      (if n > 0 then
        [{ Severity := "warn",
           Message := fmtNat n ++ " JSONL line(s) could not be parsed (likely partial writes during streaming). Token counts may be slightly under-reported." }]
      else []) = 0 := by
  split_ifs with hn
  · obtain ⟨c, t, hct, hc⟩ := natDigits_head_digit n
    refine countEq_single_ne _ _ (insight_ne_unrec2 _ model ?_)
    intro hM
    rw [data_head_append_left _ _ c (by
      rw [show (fmtNat n).data = natDigits n from rfl, hct]; rfl)] at hM
    injection hM with h
    rw [h] at hc
    exact absurd hc (by decide)
  · rfl

theorem insights_count_unrec (model : String)
    (hnf : (LookupPricing model).2 = false)
    (r : AggregatedReport) (sc : Option StatsCache)
    (hnd : (r.ModelSummaries.map Prod.fst).Nodup) :
    countEq (unrecognizedModelInsight model) (generateInsights r sc) =
      if model ∈ r.ModelSummaries.map Prod.fst then 1 else 0 := by
  unfold generateInsights
  dsimp only
  rw [countEq_append, countEq_append, countEq_append, countEq_append, countEq_append,
      countEq_unrec_part1 model r.Grand.CacheEfficiency r.Grand.TotalTokens,
      countEq_unrec_part2 model ((r.Grand.OutputTokens : ℚ) / (r.Grand.TotalTokens : ℚ))
        r.Grand.TotalTokens,
      countEq_unrec_part3 model ((r.Sessions.map (fun s => s.SubagentTotals.TotalTokens)).sum)
        r.Grand.TotalTokens,
      countEq_unrec_part4 model r.PeakHour,
      countEq_unrec_part6 model r.ParseErrors,
      countEq_unrec_filterMap model hnf r.ModelSummaries hnd]
  simp

theorem Aggregate_Insights (files : List FileInfo) (opts : AggregateOptions) (now : Int) :
    (Aggregate files opts now).Insights =
      generateInsights (Aggregate files opts now) opts.StatsCache := rfl

/-- C8: a model id matching no family prefix of the pricing table yields
found=false from the pricing lookup, a zero cost for any usage (so a zero cost
contribution to every accumulator), and the finished report carries exactly
one unrecognized-model warning insight for this model — one when the model id
occurs among the per-model buckets, none otherwise. -/
theorem C8_unknown_model_zero_cost_single_warning (model : String)
    (h : ∀ p ∈ pricingTable, isPrefixChars p.Family.data model.data = false) :
    (LookupPricing model).2 = false ∧
    (∀ u : TokenUsage, ComputeCost model u = 0) ∧
    (∀ (t : UsageTotals) (u : TokenUsage),
        (t.Add u (ComputeCost model u)).CostUSD = t.CostUSD) ∧
    (∀ (files : List FileInfo) (opts : AggregateOptions) (now : Int),
        countEq (unrecognizedModelInsight model) (Aggregate files opts now).Insights =
          if model ∈ (Aggregate files opts now).ModelSummaries.map Prod.fst then 1
          else 0) := by
  have hnf : (LookupPricing model).2 = false := by
    rw [LookupPricing_not_found model h]
  refine ⟨hnf, fun u => ComputeCost_unknown model h u, fun t u => ?_, fun files opts now => ?_⟩
  · rw [Add_CostUSD, ComputeCost_unknown model h u, add_zero]
  · rw [Aggregate_Insights]
    refine insights_count_unrec model hnf _ opts.StatsCache ?_
    rw [Aggregate_ModelSummaries]
    exact modelKeys_nodup files opts now

/-- C8 witness: the model id foo-bar-9000 matches no pricing family, so the
theorem applies to it. -/
theorem C8_unknown_model_zero_cost_single_warning_witness :
    (∀ p ∈ pricingTable, isPrefixChars p.Family.data "foo-bar-9000".data = false) ∧
    ((LookupPricing "foo-bar-9000").2 = false ∧
     (∀ u : TokenUsage, ComputeCost "foo-bar-9000" u = 0) ∧
     (∀ (t : UsageTotals) (u : TokenUsage),
         (t.Add u (ComputeCost "foo-bar-9000" u)).CostUSD = t.CostUSD) ∧
     (∀ (files : List FileInfo) (opts : AggregateOptions) (now : Int),
         countEq (unrecognizedModelInsight "foo-bar-9000")
             (Aggregate files opts now).Insights =
           if "foo-bar-9000" ∈ (Aggregate files opts now).ModelSummaries.map Prod.fst
           then 1 else 0)) :=
  ⟨by decide, C8_unknown_model_zero_cost_single_warning "foo-bar-9000" (by decide)⟩

/-- C9 counterexample: with filter "." and a file whose records carry no
working directory, the claim predicts the folder name falls back to the
slug-derived path (giving "Users-foo-bar", so no match and a skipped file),
but the code takes filepath.Base of the empty captured directory, which is
".", matches, and the file is aggregated. -/
theorem C9_counterexample :
    containsCI c9fi.ProjectSlug "." = false ∧
    containsCI (filepathBase (slugToPath c9fi.ProjectSlug)) "." = false ∧
    (aggStateOf [c9fi] { Days := 0, Project := ".", StatsCache := none } 0).Grand.TotalTokens
      = 1 := by
  refine ⟨by decide, by decide, by decide⟩

/-- C9: with a non-empty project filter, a file with at least one record is
handled as a whole by a check made right after the first record's
working-directory capture: the remainder is skipped exactly when neither the
project slug nor the folder name contains the filter case-insensitively,
where the folder name is filepath.Base of the working directory currently
captured for the slug — the empty string (giving folder name ".") when none
is known, with no slug-derived fallback path at this point. -/
theorem C9_file_filter (opts : AggregateOptions) (now : Int) (st : AggState)
    (fi : FileInfo) (r0 : MessageRecord) (rest : List MessageRecord)
    (hr : fi.records = r0 :: rest) (hp : opts.Project ≠ "") :
    (projectFilterAccept opts.Project fi.ProjectSlug
        (captureCWD fi.ProjectSlug
          { st with ParseErrors := st.ParseErrors + fi.parseErrors } r0).slugCWD = false →
      processFile opts now st fi =
        captureCWD fi.ProjectSlug
          { st with ParseErrors := st.ParseErrors + fi.parseErrors } r0) ∧
    (projectFilterAccept opts.Project fi.ProjectSlug
        (captureCWD fi.ProjectSlug
          { st with ParseErrors := st.ParseErrors + fi.parseErrors } r0).slugCWD = true →
      processFile opts now st fi =
        rest.foldl (recordStep opts now fi)
          (recordTail opts now fi
            (captureCWD fi.ProjectSlug
              { st with ParseErrors := st.ParseErrors + fi.parseErrors } r0) r0)) ∧
    (∀ m : List (String × String),
      projectFilterAccept opts.Project fi.ProjectSlug m =
        (containsCI fi.ProjectSlug opts.Project ||
         containsCI (filepathBase (lookupD m fi.ProjectSlug "")) opts.Project)) ∧
    filepathBase "" = "." := by
  refine ⟨?_, ?_, fun m => rfl, rfl⟩
  · intro hacc
    unfold processFile
    rw [hr]
    dsimp only
    rw [if_pos ⟨hp, hacc⟩]
  · intro hacc
    unfold processFile
    rw [hr]
    dsimp only
    rw [if_neg (fun hcon => by rw [hacc] at hcon; cases hcon.2)]

/-- C9 witness: a filter that matches neither the slug nor the "." folder
name makes the file contribute nothing beyond its first record's capture. -/
theorem C9_file_filter_witness :
    c9fi.records = c9r0 :: [] ∧
    ({ Days := 0, Project := "zzz", StatsCache := none } : AggregateOptions).Project ≠ "" ∧
    projectFilterAccept "zzz" c9fi.ProjectSlug
      (captureCWD c9fi.ProjectSlug
        { ({} : AggState) with
            ParseErrors := ({} : AggState).ParseErrors + c9fi.parseErrors } c9r0).slugCWD
      = false ∧
    processFile { Days := 0, Project := "zzz", StatsCache := none } 0 {} c9fi =
      captureCWD c9fi.ProjectSlug
        { ({} : AggState) with
            ParseErrors := ({} : AggState).ParseErrors + c9fi.parseErrors } c9r0 :=
  ⟨rfl, by decide, by decide,
   (C9_file_filter { Days := 0, Project := "zzz", StatsCache := none } 0 {} c9fi c9r0 []
     rfl (by decide)).1 (by decide)⟩

theorem clarityRecordStep_empty_sid (cutoff : Int) (sm : List (String × SessState))
    (rec : MessageRecord) (h : rec.SessionID = "") :
    clarityRecordStep cutoff sm rec = sm := by
  unfold clarityRecordStep
  by_cases hc : cutoff ≠ 0 ∧ rec.Timestamp ≠ 0 ∧ rec.Timestamp < cutoff
  · rw [if_pos hc]
  · rw [if_neg hc, if_pos h]

theorem clarityStateMap_filter_sessions (files : List FileInfo) (cutoff : Int) :
    clarityStateMap (files.filter (fun fi => fi.Kind == FileKind.KindSession)) cutoff =
      clarityStateMap files cutoff := by
  unfold clarityStateMap
  have hgen : ∀ (l : List FileInfo) (sm : List (String × SessState)),
      (l.filter (fun fi => fi.Kind == FileKind.KindSession)).foldl
        (fun sm fi =>
          if fi.Kind ≠ FileKind.KindSession then sm
          else fi.records.foldl (clarityRecordStep cutoff) sm) sm =
      l.foldl
        (fun sm fi =>
          if fi.Kind ≠ FileKind.KindSession then sm
          else fi.records.foldl (clarityRecordStep cutoff) sm) sm := by
    intro l
    induction l with
    | nil => intro sm; rfl
    | cons fi rest ih =>
        intro sm
        rw [List.filter_cons]
        by_cases hk : fi.Kind = FileKind.KindSession
        · rw [if_pos (by simp [hk]), List.foldl_cons, List.foldl_cons, ih]
        · rw [if_neg (by simp [hk]), List.foldl_cons, ih]
          have : (if fi.Kind ≠ FileKind.KindSession then sm
              else fi.records.foldl (clarityRecordStep cutoff) sm) = sm := if_pos hk
          rw [this]
  exact hgen files []

theorem clarityStateMap_filter_sid (files : List FileInfo) (cutoff : Int) :
    clarityStateMap
        (files.map (fun fi =>
          { fi with records := fi.records.filter (fun r => decide (r.SessionID ≠ "")) }))
        cutoff =
      clarityStateMap files cutoff := by
  unfold clarityStateMap
  have hrec : ∀ (rs : List MessageRecord) (sm : List (String × SessState)),
      (rs.filter (fun r => decide (r.SessionID ≠ ""))).foldl (clarityRecordStep cutoff) sm =
        rs.foldl (clarityRecordStep cutoff) sm := by
    intro rs
    induction rs with
    | nil => intro sm; rfl
    | cons r rest ih =>
        intro sm
        rw [List.filter_cons]
        by_cases hs : r.SessionID = ""
        · rw [if_neg (by simp [hs]), List.foldl_cons, ih,
            clarityRecordStep_empty_sid cutoff sm r hs]
        · rw [if_pos (by simp [hs]), List.foldl_cons, List.foldl_cons, ih]
  have hgen : ∀ (l : List FileInfo) (sm : List (String × SessState)),
      (l.map (fun fi =>
          { fi with records := fi.records.filter (fun r => decide (r.SessionID ≠ "")) })).foldl
        (fun sm fi =>
          if fi.Kind ≠ FileKind.KindSession then sm
          else fi.records.foldl (clarityRecordStep cutoff) sm) sm =
      l.foldl
        (fun sm fi =>
          if fi.Kind ≠ FileKind.KindSession then sm
          else fi.records.foldl (clarityRecordStep cutoff) sm) sm := by
    intro l
    induction l with
    | nil => intro sm; rfl
    | cons fi rest ih =>
        intro sm
        rw [List.map_cons, List.foldl_cons, List.foldl_cons, ih]
        refine congrArg (fun s => rest.foldl
          (fun sm fi =>
            if fi.Kind ≠ FileKind.KindSession then sm
            else fi.records.foldl (clarityRecordStep cutoff) sm) s) ?_
        show (if fi.Kind ≠ FileKind.KindSession then sm
              else (fi.records.filter (fun r => decide (r.SessionID ≠ ""))).foldl
                (clarityRecordStep cutoff) sm) =
             (if fi.Kind ≠ FileKind.KindSession then sm
              else fi.records.foldl (clarityRecordStep cutoff) sm)
        by_cases hk : fi.Kind = FileKind.KindSession
        · rw [if_neg (fun hne => hne hk), if_neg (fun hne => hne hk)]
          exact hrec fi.records sm
        · rw [if_pos hk, if_pos hk]
  exact hgen files []

/-- C10: the clarity report is computed exclusively from main-session files
and from records carrying a session id — dropping every subagent-kind file,
or dropping every record with an empty session id, leaves the ClarityReport
unchanged for all inputs. -/
theorem C10_clarity_ignores_subagents_and_blank_sessions (files : List FileInfo)
    (cutoff : Int) (localHour : Int → Nat) (rng : Nat → Nat) :
    ComputeClarity (files.filter (fun fi => fi.Kind == FileKind.KindSession))
        cutoff localHour rng =
      ComputeClarity files cutoff localHour rng ∧
    ComputeClarity (files.map (fun fi =>
          { fi with records := fi.records.filter (fun r => decide (r.SessionID ≠ "")) }))
        cutoff localHour rng =
      ComputeClarity files cutoff localHour rng := by
  constructor
  · unfold ComputeClarity allMetricsOf
    rw [clarityStateMap_filter_sessions]
  · unfold ComputeClarity allMetricsOf
    rw [clarityStateMap_filter_sid]
